import Mathlib

/-
Shallow embedding of the schema-and-import engine of scripts/build_db.py
(function create_database together with the surrounding main pipeline).

The pipeline creates a fresh SQLite store, issues the eight GTFS CREATE
TABLE statements plus the Room metadata table, streams each source text
table into its pre-created table with pandas (dtype=str, so every cell is
either a string or NaN), applies the per-table fillna defaulting rules,
creates the secondary indices, runs VACUUM / ANALYZE / PRAGMA
integrity_check, and only then lets main() write the manifest.

The dynamic typing of SQLite is modelled for the parts the claims touch:
a column declared INTEGER has INTEGER affinity, so a bound text value that
is a well-formed integer or real literal (surrounding whitespace allowed)
is converted — to INTEGER when the value is exactly an integer in the
signed 64-bit range, to REAL otherwise — while any other text is stored
verbatim as TEXT, never an error; REAL values are kept as exact rationals,
leaving 64-bit IEEE rounding out of the model. NOT NULL and PRIMARY KEY
uniqueness are enforced on insert and raise, which the to_sql call turns
into the exception that the script answers with exit(1).
-/

namespace RomaGtfs

/-- SQLite storage classes that can arise here: NULL, INTEGER, REAL and
TEXT. A REAL value is modelled as the exact rational value of the literal
that produced it; the 64-bit IEEE rounding a real engine applies on top of
this is not modelled (no claim inspects a REAL value). -/
inductive SQLVal where
  | null
  | int (n : Int)
  | real (q : Rat)
  | text (s : String)
deriving DecidableEq, Repr

/-- One declared column of a CREATE TABLE statement: its name, whether it
was declared INTEGER (integer affinity) and whether it carries NOT NULL. -/
structure Col where
  name : String
  isInt : Bool
  notNull : Bool
deriving DecidableEq, Repr

/-- A table schema: the declared columns in order and the PRIMARY KEY
column list (singleton for simple keys, several names for composite keys). -/
structure TableSchema where
  cols : List Col
  pk : List String
deriving DecidableEq, Repr

/-- A stored table: its schema and its rows, each row aligned with the
column list of the schema. -/
structure Table where
  schema : TableSchema
  rows : List (List SQLVal)
deriving DecidableEq, Repr

/-- A pandas data-frame row read with dtype=str: an association of column
name to cell, where a cell is either a string or NaN (none). -/
abbrev Row := List (String × Option String)

/-- A parsed source text file: the column names of the header and the data rows. -/
structure CSV where
  cols : List String
  rows : List Row
deriving DecidableEq, Repr

/-- Association-list lookup by string key, first match wins. -/
def assocLookup {α : Type} : List (String × α) → String → Option α
  | [], _ => none
  | p :: rest, k => if p.1 = k then some p.2 else assocLookup rest k

/-- Association-list update of the first entry with the given key, leaving
the list unchanged when the key is absent. -/
def assocSet {α : Type} : List (String × α) → String → α → List (String × α)
  | [], _, _ => []
  | p :: rest, k, v => if p.1 = k then (p.1, v) :: rest else p :: assocSet rest k v

/-- Cell of a data-frame row at a column, none both for NaN and for a
column the row does not carry. -/
def rowGet : Row → String → Option String
  | [], _ => none
  | p :: rest, c => if p.1 = c then p.2 else rowGet rest c

/-- Pandas column assignment: overwrite an existing column or append a new
one. -/
def rowSet : Row → String → Option String → Row
  | [], c, v => [(c, v)]
  | p :: rest, c, v => if p.1 = c then (c, v) :: rest else p :: rowSet rest c v

/-- Pandas Series.fillna at the level of one cell. -/
def fillna (v w : Option String) : Option String :=
  match v with
  | none => w
  | some s => some s

/-- Column projection chunk[available_cols]: keep only the cells of the
selected columns. -/
def projectRow (avail : List String) (r : Row) : Row :=
  r.filter (fun p => decide (p.1 ∈ avail))

/-- Whitespace characters the SQLite text-to-number conversion skips
before and after a numeric literal. -/
def isSqlSpace (c : Char) : Bool :=
  c = ' ' || c = '\t' || c = '\n' || c = '\r' || c = '\x0b' || c = '\x0c'

/-- Drop leading SQLite whitespace. -/
def dropSqlSpace : List Char → List Char
  | [] => []
  | c :: cs => if isSqlSpace c then dropSqlSpace cs else c :: cs

/-- Read a maximal run of decimal digits: accumulated value, number of
digits read, and the remaining characters. -/
def readDigits : List Char → Nat → Nat → Nat × Nat × List Char
  | [], acc, k => (acc, k, [])
  | c :: cs, acc, k =>
    if c.isDigit then readDigits cs (acc * 10 + (c.toNat - 48)) (k + 1)
    else (acc, k, c :: cs)

/-- The well-formed integer and real literals SQLite converts under
INTEGER/NUMERIC affinity: optional whitespace, an optional sign, digits
with an optional decimal point (at least one digit on either side of it),
an optional exponent with at least one digit, optional whitespace, end of
text. Yields the sign, the mantissa digits read as a number, and the
decimal exponent of the value sign * mantissa * 10 ^ exponent. -/
def parseNum (cs0 : List Char) : Option (Bool × Nat × Int) :=
  let cs := dropSqlSpace cs0
  let sgn : Bool × List Char :=
    match cs with
    | '-' :: rest => (true, rest)
    | '+' :: rest => (false, rest)
    | rest => (false, rest)
  let ipart := readDigits sgn.2 0 0
  let fpart :=
    match ipart.2.2 with
    | '.' :: rest => readDigits rest 0 0
    | rest => (0, 0, rest)
  let mant := ipart.1 * 10 ^ fpart.2.1 + fpart.1
  let mlen := ipart.2.1 + fpart.2.1
  match fpart.2.2 with
  | 'e' :: rest | 'E' :: rest =>
    let esgn : Bool × List Char :=
      match rest with
      | '-' :: r => (true, r)
      | '+' :: r => (false, r)
      | r => (false, r)
    let ep := readDigits esgn.2 0 0
    if 0 < mlen ∧ 0 < ep.2.1 ∧ ep.2.2.all isSqlSpace = true then
      some (sgn.1, mant,
        (if esgn.1 then -(ep.1 : Int) else (ep.1 : Int)) - (fpart.2.1 : Int))
    else none
  | rest =>
    if 0 < mlen ∧ rest.all isSqlSpace = true then
      some (sgn.1, mant, -((fpart.2.1 : Nat) : Int))
    else none

/-- The parsed literal sign * d * 10 ^ e as an integer, when its value is
exactly an integer. -/
def intOfSci (neg : Bool) (d : Nat) (e : Int) : Option Int :=
  if 0 ≤ e then
    some ((if neg then -(d : Int) else (d : Int)) * 10 ^ e.toNat)
  else if 10 ^ (-e).toNat ∣ d then
    some (if neg then -((d / 10 ^ (-e).toNat : Nat) : Int)
          else ((d / 10 ^ (-e).toNat : Nat) : Int))
  else none

/-- The parsed literal sign * d * 10 ^ e as an exact rational. -/
def ratOfSci (neg : Bool) (d : Nat) (e : Int) : Rat :=
  let m : Int := if neg then -(d : Int) else (d : Int)
  if 0 ≤ e then ((m * 10 ^ e.toNat : Int) : Rat)
  else mkRat m (10 ^ (-e).toNat)

/-- Storage class a well-formed numeric literal receives under INTEGER
affinity: INTEGER when the value is exactly an integer in the signed
64-bit range (so text 500.0 becomes INTEGER 500), REAL otherwise (values
with a fractional part, and integers outside the 64-bit range). -/
def numAffinity (neg : Bool) (d : Nat) (e : Int) : SQLVal :=
  match intOfSci neg d e with
  | some n =>
    if -(2 ^ 63) ≤ n ∧ n ≤ 2 ^ 63 - 1 then SQLVal.int n
    else SQLVal.real (ratOfSci neg d e)
  | none => SQLVal.real (ratOfSci neg d e)

/-- Text-to-number conversion attempted on a text value bound into an
INTEGER-affinity column: some numeric storage value when the text is a
well-formed integer or real literal, none when it is not. -/
def sqliteNum? (s : String) : Option SQLVal :=
  match parseNum s.data with
  | some (neg, d, e) => some (numAffinity neg d e)
  | none => none

/-- SQLite type affinity applied when binding a pandas cell into a column:
NaN becomes NULL; text bound into an INTEGER column is converted when it
is a well-formed integer or real literal (stored as INTEGER when the value
is an integer in 64-bit range, as REAL otherwise) and any other text is
stored verbatim as TEXT; TEXT columns store the text unchanged. No case is
an error. -/
def applyAffinity (c : Col) (v : Option String) : SQLVal :=
  match v with
  | none => SQLVal.null
  | some s =>
    if c.isInt then
      match sqliteNum? s with
      | some w => w
      | none => SQLVal.text s
    else SQLVal.text s

/-- Values of one INSERT: each declared column is bound to the cell of the row
for that column name (NULL when the data frame does not carry it). -/
def insertValsAux (cols : List Col) (r : Row) : List SQLVal :=
  cols.map (fun c => applyAffinity c (rowGet r c.name))

/-- Values of one INSERT against a table schema. -/
def insertVals (sch : TableSchema) (r : Row) : List SQLVal :=
  insertValsAux sch.cols r

/-- Value stored under a column name in an aligned value list. -/
def colVal : List Col → List SQLVal → String → SQLVal
  | [], _, _ => SQLVal.null
  | _ :: _, [], _ => SQLVal.null
  | c :: cs, v :: vs, name => if c.name = name then v else colVal cs vs name

/-- The primary-key tuple of an aligned value list. -/
def keyOf (sch : TableSchema) (vals : List SQLVal) : List SQLVal :=
  sch.pk.map (colVal sch.cols vals)

/-- SQLite NOT NULL enforcement: does some NOT NULL column receive NULL? -/
def notNullViolation : List Col → List SQLVal → Bool
  | [], _ => false
  | _ :: _, [] => false
  | c :: cs, v :: vs => (c.notNull && decide (v = SQLVal.null)) || notNullViolation cs vs

/-- One INSERT into a table: NOT NULL violations and duplicate (entirely
non-NULL) primary keys raise; otherwise the row is appended. -/
def insertRow (t : Table) (r : Row) : Except String Table :=
  if notNullViolation t.schema.cols (insertVals t.schema r) then
    Except.error "NOT NULL constraint failed"
  else if (insertVals t.schema r |> keyOf t.schema).all (fun v => decide (v ≠ SQLVal.null)) &&
      t.rows.any (fun old =>
        decide (keyOf t.schema old = keyOf t.schema (insertVals t.schema r))) then
    Except.error "UNIQUE constraint failed"
  else
    Except.ok { t with rows := t.rows ++ [insertVals t.schema r] }

/-- Columns that the cleaning block of a table reads with data[col]; reading a column
absent from the frame raises KeyError (build_db.py lines 268-278). -/
def cleanAccessedCols (table : String) : List String :=
  if table = "routes" then ["route_long_name", "route_short_name", "route_id"]
  else if table = "stops" then ["stop_name", "stop_lat", "stop_lon"]
  else []

/-- Columns that the cleaning block of a table overwrites. -/
def cleanModifiedCols (table : String) : List String :=
  if table = "routes" then ["route_long_name", "route_short_name"]
  else if table = "stops" then ["stop_name", "stop_lat", "stop_lon"]
  else []

/-- Per-table fillna defaulting applied to one row, in the statement order
of build_db.py: routes fill route_long_name from route_short_name and then
route_short_name from route_id; stops fill stop_name with the literal
placeholder and stop_lat / stop_lon with the text 0.0; other tables clean
nothing. -/
def cleanVals (table : String) (r : Row) : Row :=
  if table = "routes" then
    let r1 := rowSet r "route_long_name"
      (fillna (rowGet r "route_long_name") (rowGet r "route_short_name"))
    rowSet r1 "route_short_name"
      (fillna (rowGet r1 "route_short_name") (rowGet r1 "route_id"))
  else if table = "stops" then
    let r1 := rowSet r "stop_name" (fillna (rowGet r "stop_name") (some "Unknown Stop"))
    let r2 := rowSet r1 "stop_lat" (fillna (rowGet r1 "stop_lat") (some "0.0"))
    rowSet r2 "stop_lon" (fillna (rowGet r2 "stop_lon") (some "0.0"))
  else r

/-- Append the cleaned projection of each source row in file order; the
first raising INSERT aborts the whole import. -/
def insertRows (table : String) (avail : List String) (t : Table) :
    List Row → Except String Table
  | [] => Except.ok t
  | r :: rs =>
    match insertRow t (cleanVals table (projectRow avail r)) with
    | Except.ok t' => insertRows table avail t' rs
    | Except.error m => Except.error m

/-- Observable build events: printed warnings, the optimization statements
and the two publication steps. -/
inductive Event where
  | warn (msg : String)
  | vacuum
  | analyze
  | integrityCheck (result : String)
  | manifest
deriving DecidableEq, Repr

/-- Warning printed when a source file is absent (build_db.py line 249). -/
def missingFileMsg (file : String) : String :=
  "File " ++ file ++ " non trovato, skip"

/-- Warning printed when schema columns are absent from the source header
(build_db.py line 263). -/
def missingColsMsg (missing : List String) : String :=
  "Colonne mancanti nel CSV: " ++ String.intercalate ", " missing

/-- Import of one source file into its pre-created table: select the
schema columns present in the header, warn about the absent ones, run the
cleaning block (KeyError when it reads an absent column), then append the
rows; any exception is fatal for the caller. An empty file yields no chunk,
so nothing runs. -/
def importTable (table : String) (columns : List String) (csv : CSV) (t : Table) :
    (Except String Table) × List Event :=
  let avail := columns.filter (fun c => decide (c ∈ csv.cols))
  let missing := columns.filter (fun c => decide (c ∉ csv.cols))
  if csv.rows.isEmpty then (Except.ok t, [])
  else
    let evs := if missing.isEmpty then [] else [Event.warn (missingColsMsg missing)]
    let res :=
      if (cleanAccessedCols table).all (fun c => decide (c ∈ avail)) then
        insertRows table avail t csv.rows
      else
        Except.error "KeyError"
    (res, evs)

/-- CREATE TABLE routes (build_db.py lines 105-115). -/
def routesSchema : TableSchema :=
  { cols := [
      { name := "route_id", isInt := false, notNull := true },
      { name := "agency_id", isInt := false, notNull := false },
      { name := "route_short_name", isInt := false, notNull := true },
      { name := "route_long_name", isInt := false, notNull := true },
      { name := "route_type", isInt := false, notNull := false },
      { name := "route_color", isInt := false, notNull := false },
      { name := "route_text_color", isInt := false, notNull := false }],
    pk := ["route_id"] }

/-- CREATE TABLE stops (build_db.py lines 119-134). -/
def stopsSchema : TableSchema :=
  { cols := [
      { name := "stop_id", isInt := false, notNull := true },
      { name := "stop_code", isInt := false, notNull := false },
      { name := "stop_name", isInt := false, notNull := true },
      { name := "stop_desc", isInt := false, notNull := false },
      { name := "stop_lat", isInt := false, notNull := true },
      { name := "stop_lon", isInt := false, notNull := true },
      { name := "zone_id", isInt := false, notNull := false },
      { name := "stop_url", isInt := false, notNull := false },
      { name := "location_type", isInt := false, notNull := false },
      { name := "parent_station", isInt := false, notNull := false },
      { name := "stop_timezone", isInt := false, notNull := false },
      { name := "wheelchair_boarding", isInt := false, notNull := false }],
    pk := ["stop_id"] }

/-- CREATE TABLE trips (build_db.py lines 138-151). -/
def tripsSchema : TableSchema :=
  { cols := [
      { name := "trip_id", isInt := false, notNull := true },
      { name := "route_id", isInt := false, notNull := true },
      { name := "service_id", isInt := false, notNull := true },
      { name := "trip_headsign", isInt := false, notNull := false },
      { name := "trip_short_name", isInt := false, notNull := false },
      { name := "direction_id", isInt := false, notNull := false },
      { name := "block_id", isInt := false, notNull := false },
      { name := "shape_id", isInt := false, notNull := false },
      { name := "wheelchair_accessible", isInt := false, notNull := false },
      { name := "bikes_allowed", isInt := false, notNull := false }],
    pk := ["trip_id"] }

/-- CREATE TABLE stop_times (build_db.py lines 155-169): stop_sequence is
declared INTEGER, and the key is the composite (trip_id, stop_sequence). -/
def stopTimesSchema : TableSchema :=
  { cols := [
      { name := "trip_id", isInt := false, notNull := true },
      { name := "arrival_time", isInt := false, notNull := true },
      { name := "departure_time", isInt := false, notNull := true },
      { name := "stop_id", isInt := false, notNull := true },
      { name := "stop_sequence", isInt := true, notNull := true },
      { name := "stop_headsign", isInt := false, notNull := false },
      { name := "pickup_type", isInt := false, notNull := false },
      { name := "drop_off_type", isInt := false, notNull := false },
      { name := "shape_dist_traveled", isInt := false, notNull := false },
      { name := "timepoint", isInt := false, notNull := false }],
    pk := ["trip_id", "stop_sequence"] }

/-- CREATE TABLE calendar (build_db.py lines 173-186). -/
def calendarSchema : TableSchema :=
  { cols := [
      { name := "service_id", isInt := false, notNull := true },
      { name := "monday", isInt := false, notNull := true },
      { name := "tuesday", isInt := false, notNull := true },
      { name := "wednesday", isInt := false, notNull := true },
      { name := "thursday", isInt := false, notNull := true },
      { name := "friday", isInt := false, notNull := true },
      { name := "saturday", isInt := false, notNull := true },
      { name := "sunday", isInt := false, notNull := true },
      { name := "start_date", isInt := false, notNull := true },
      { name := "end_date", isInt := false, notNull := true }],
    pk := ["service_id"] }

/-- CREATE TABLE calendar_dates (build_db.py lines 190-197). -/
def calendarDatesSchema : TableSchema :=
  { cols := [
      { name := "service_id", isInt := false, notNull := true },
      { name := "date", isInt := false, notNull := true },
      { name := "exception_type", isInt := false, notNull := true }],
    pk := ["service_id", "date"] }

/-- CREATE TABLE shapes (build_db.py lines 201-210): shape_pt_sequence is
declared INTEGER, key (shape_id, shape_pt_sequence). -/
def shapesSchema : TableSchema :=
  { cols := [
      { name := "shape_id", isInt := false, notNull := true },
      { name := "shape_pt_lat", isInt := false, notNull := true },
      { name := "shape_pt_lon", isInt := false, notNull := true },
      { name := "shape_pt_sequence", isInt := true, notNull := true },
      { name := "shape_dist_traveled", isInt := false, notNull := false }],
    pk := ["shape_id", "shape_pt_sequence"] }

/-- CREATE TABLE agency (build_db.py lines 214-223). -/
def agencySchema : TableSchema :=
  { cols := [
      { name := "agency_id", isInt := false, notNull := true },
      { name := "agency_name", isInt := false, notNull := true },
      { name := "agency_url", isInt := false, notNull := true },
      { name := "agency_timezone", isInt := false, notNull := true },
      { name := "agency_lang", isInt := false, notNull := false },
      { name := "agency_phone", isInt := false, notNull := false }],
    pk := ["agency_id"] }

/-- CREATE TABLE room_master_table (build_db.py lines 86-91). -/
def roomSchema : TableSchema :=
  { cols := [
      { name := "id", isInt := true, notNull := false },
      { name := "identity_hash", isInt := false, notNull := false }],
    pk := ["id"] }

/-- Target schema of a table name. -/
def schemaFor (table : String) : TableSchema :=
  if table = "routes" then routesSchema
  else if table = "stops" then stopsSchema
  else if table = "trips" then tripsSchema
  else if table = "stop_times" then stopTimesSchema
  else if table = "calendar" then calendarSchema
  else if table = "calendar_dates" then calendarDatesSchema
  else if table = "shapes" then shapesSchema
  else if table = "agency" then agencySchema
  else roomSchema

/-- A freshly created table with no rows. -/
def emptyTable (sch : TableSchema) : Table :=
  { schema := sch, rows := [] }

/-- The store: tables by name plus the names of the created indices. -/
structure DB where
  tables : List (String × Table)
  indices : List String
deriving DecidableEq, Repr

/-- The store right after schema creation: room_master_table already holds
its single seed row (build_db.py lines 95-98), the eight GTFS tables are
empty, no index exists yet. -/
def initDB : DB :=
  { tables := [
      ("room_master_table",
        { schema := roomSchema,
          rows := [[SQLVal.int 42, SQLVal.text "GTFS_DATABASE_V1_PLACEHOLDER"]] }),
      ("routes", emptyTable routesSchema),
      ("stops", emptyTable stopsSchema),
      ("trips", emptyTable tripsSchema),
      ("stop_times", emptyTable stopTimesSchema),
      ("calendar", emptyTable calendarSchema),
      ("calendar_dates", emptyTable calendarDatesSchema),
      ("shapes", emptyTable shapesSchema),
      ("agency", emptyTable agencySchema)],
    indices := [] }

/-- The imports map of build_db.py lines 234-243, in its insertion order:
table name, source file name, requested columns. -/
def importsList : List (String × String × List String) := [
  ("routes", "routes.txt",
    ["route_id", "agency_id", "route_short_name", "route_long_name", "route_type",
     "route_color", "route_text_color"]),
  ("stops", "stops.txt",
    ["stop_id", "stop_code", "stop_name", "stop_desc", "stop_lat", "stop_lon",
     "zone_id", "stop_url", "location_type", "parent_station", "stop_timezone",
     "wheelchair_boarding"]),
  ("trips", "trips.txt",
    ["trip_id", "route_id", "service_id", "trip_headsign", "trip_short_name",
     "direction_id", "block_id", "shape_id", "wheelchair_accessible", "bikes_allowed"]),
  ("stop_times", "stop_times.txt",
    ["trip_id", "arrival_time", "departure_time", "stop_id", "stop_sequence",
     "stop_headsign", "pickup_type", "drop_off_type", "shape_dist_traveled", "timepoint"]),
  ("calendar", "calendar.txt",
    ["service_id", "monday", "tuesday", "wednesday", "thursday", "friday", "saturday",
     "sunday", "start_date", "end_date"]),
  ("calendar_dates", "calendar_dates.txt",
    ["service_id", "date", "exception_type"]),
  ("shapes", "shapes.txt",
    ["shape_id", "shape_pt_lat", "shape_pt_lon", "shape_pt_sequence",
     "shape_dist_traveled"]),
  ("agency", "agency.txt",
    ["agency_id", "agency_name", "agency_url", "agency_timezone", "agency_lang",
     "agency_phone"])]

/-- The extracted source directory: files by name; an absent name is a
missing source file. -/
abbrev SourceDir := List (String × CSV)

/-- One iteration of the import loop: a missing file is only a warning and
a skip; otherwise the file is imported into the looked-up table and any
exception aborts the build. The fallback branch for a table missing from
the store is unreachable, since every imported table is pre-created. -/
def importEntry (src : SourceDir) (acc : DB × List Event)
    (e : String × String × List String) : (Except String DB) × List Event :=
  match assocLookup src e.2.1 with
  | none => (Except.ok acc.1, acc.2 ++ [Event.warn (missingFileMsg e.2.1)])
  | some csv =>
    match assocLookup acc.1.tables e.1 with
    | none => (Except.error ("no such table: " ++ e.1), acc.2)
    | some t =>
      match importTable e.1 e.2.2 csv t with
      | (Except.ok t', evs) =>
        (Except.ok { acc.1 with tables := assocSet acc.1.tables e.1 t' }, acc.2 ++ evs)
      | (Except.error m, evs) => (Except.error m, acc.2 ++ evs)

/-- The import loop over the imports map. -/
def runImports (src : SourceDir) :
    List (String × String × List String) → DB × List Event → (Except String DB) × List Event
  | [], acc => (Except.ok acc.1, acc.2)
  | e :: rest, acc =>
    match importEntry src acc e with
    | (Except.ok db', evs') => runImports src rest (db', evs')
    | (Except.error m, evs') => (Except.error m, evs')

/-- The six CREATE INDEX IF NOT EXISTS statements (build_db.py lines
312-327), by index name. -/
def indexNames : List String := [
  "idx_stop_times_stop_id",
  "idx_trips_route_id",
  "idx_trips_service_id",
  "idx_shapes_id",
  "idx_calendar_dates_service",
  "idx_calendar_dates_date"]

/-- The index loop: IF NOT EXISTS skips an index already present, a
creation that the engine refuses (modelled by the oracle idxOk) is only a
logged warning, and the loop never raises. -/
def createIndicesAux (idxOk : String → Bool) :
    List String → DB × List Event → DB × List Event
  | [], acc => acc
  | n :: rest, acc =>
    if n ∈ acc.1.indices then createIndicesAux idxOk rest acc
    else if idxOk n then
      createIndicesAux idxOk rest
        ({ acc.1 with indices := acc.1.indices ++ [n] }, acc.2)
    else
      createIndicesAux idxOk rest (acc.1, acc.2 ++ [Event.warn ("Indice " ++ n ++ ": errore")])

set_option linter.unusedVariables false in
/-- os.remove of a pre-existing store file (build_db.py lines 77-79):
whatever was there before, schema creation starts from no store at all. -/
def removeIfExists (prior : Option DB) : Option DB := none

/-- Schema creation against the store path: on a fresh path it yields the
initial store; were a prior store still present, the plain CREATE TABLE
statements would raise instead of merging. -/
def createSchema : Option DB → Except String DB
  | none => Except.ok initDB
  | some _ => Except.error "table routes already exists"

/-- The whole of create_database: drop the prior store, create the schema,
run the imports, build the indices, then VACUUM, ANALYZE and PRAGMA
integrity_check in that order; any result of the check other than the
canonical ok string is answered with exit(1). -/
def create_database (prior : Option DB) (src : SourceDir) (idxOk : String → Bool)
    (integrity : String) : (Except String DB) × List Event :=
  match createSchema (removeIfExists prior) with
  | Except.error m => (Except.error m, [])
  | Except.ok db0 =>
    match runImports src importsList (db0, []) with
    | (Except.error m, evs) => (Except.error m, evs)
    | (Except.ok db1, evs1) =>
      let step := createIndicesAux idxOk indexNames (db1, evs1)
      let evs3 := step.2 ++ [Event.vacuum, Event.analyze, Event.integrityCheck integrity]
      if integrity = "ok" then (Except.ok step.1, evs3)
      else (Except.error "integrity check failed", evs3)

/-- Outcome of one run of main(): process exit code, the event log, and
the finished store when the build succeeded. -/
structure BuildResult where
  exitCode : Nat
  events : List Event
  db : Option DB
deriving DecidableEq, Repr

/-- main(): create_database followed, only on success, by the manifest
generation step; every failure path has already called exit(1) and no
manifest is written. -/
def main_pipeline (prior : Option DB) (src : SourceDir) (idxOk : String → Bool)
    (integrity : String) : BuildResult :=
  match create_database prior src idxOk integrity with
  | (Except.ok db, evs) => { exitCode := 0, events := evs ++ [Event.manifest], db := some db }
  | (Except.error _, evs) => { exitCode := 1, events := evs, db := none }

/-! Basic lemmas about rows, association lists and single inserts. -/

theorem rowGet_rowSet_self (r : Row) (c : String) (v : Option String) :
    rowGet (rowSet r c v) c = v := by
  induction r with
  | nil => simp [rowSet, rowGet]
  | cons p rest ih =>
    by_cases h : p.1 = c
    · simp [rowSet, h, rowGet]
    · simp [rowSet, h, rowGet, ih]

theorem rowGet_rowSet_ne (r : Row) (c c' : String) (v : Option String) (h : c' ≠ c) :
    rowGet (rowSet r c v) c' = rowGet r c' := by
  have hcc : c ≠ c' := Ne.symm h
  induction r with
  | nil => simp [rowSet, rowGet, hcc]
  | cons p rest ih =>
    by_cases hp : p.1 = c
    · simp [rowSet, rowGet, hp, hcc]
    · simp [rowSet, rowGet, hp, ih]

theorem rowGet_projectRow (avail : List String) (r : Row) (c : String) :
    rowGet (projectRow avail r) c = if c ∈ avail then rowGet r c else none := by
  induction r with
  | nil => simp [projectRow, rowGet]
  | cons p rest ih =>
    by_cases hmem : p.1 ∈ avail
    · by_cases hc : p.1 = c
      · subst hc
        simp [projectRow, List.filter, hmem, rowGet]
      · simp only [projectRow, List.filter] at ih ⊢
        simp [hmem, rowGet, hc, ih]
    · by_cases hc : p.1 = c
      · subst hc
        simp only [projectRow, List.filter] at ih ⊢
        simp [hmem, rowGet, ih]
      · simp only [projectRow, List.filter] at ih ⊢
        simp [hmem, rowGet, hc, ih]

theorem fillna_some (v : Option String) (d : String) :
    fillna v (some d) = some (v.getD d) := by
  cases v <;> rfl

theorem numAffinity_ne_null (neg : Bool) (d : Nat) (e : Int) :
    numAffinity neg d e ≠ SQLVal.null := by
  unfold numAffinity
  split
  · split <;> simp
  · simp

theorem applyAffinity_some_ne_null (c : Col) (s : String) :
    applyAffinity c (some s) ≠ SQLVal.null := by
  simp only [applyAffinity]
  by_cases h : c.isInt = true
  · simp only [h, if_true]
    cases hn : sqliteNum? s with
    | none => simp
    | some w =>
      unfold sqliteNum? at hn
      cases hp : parseNum s.data with
      | none =>
        rw [hp] at hn
        exact Option.noConfusion hn
      | some trip =>
        rw [hp] at hn
        have : w = numAffinity trip.1 trip.2.1 trip.2.2 := by
          cases trip with
          | mk a bc =>
            cases bc with
            | mk b cc => exact (Option.some.inj hn).symm
        rw [this]
        exact numAffinity_ne_null _ _ _
  · simp only [h, if_false]
    simp

theorem assocLookup_assocSet_self {α : Type} (l : List (String × α)) (k : String)
    (a v : α) (h : assocLookup l k = some a) :
    assocLookup (assocSet l k v) k = some v := by
  induction l with
  | nil => simp [assocLookup] at h
  | cons p rest ih =>
    by_cases hp : p.1 = k
    · simp [assocSet, hp, assocLookup]
    · simp only [assocLookup, hp, if_false] at h
      simp [assocSet, hp, assocLookup, ih h]

theorem assocLookup_assocSet_ne {α : Type} (l : List (String × α)) (k k' : String)
    (v : α) (h : k' ≠ k) :
    assocLookup (assocSet l k v) k' = assocLookup l k' := by
  have hcc : k ≠ k' := Ne.symm h
  induction l with
  | nil => simp [assocSet]
  | cons p rest ih =>
    by_cases hp : p.1 = k
    · simp [assocSet, assocLookup, hp, hcc]
    · simp [assocSet, assocLookup, hp, ih]

theorem assocSet_map_fst {α : Type} (l : List (String × α)) (k : String) (v : α) :
    (assocSet l k v).map Prod.fst = l.map Prod.fst := by
  induction l with
  | nil => rfl
  | cons p rest ih =>
    by_cases hp : p.1 = k
    · simp [assocSet, hp]
    · simp [assocSet, hp, ih]

theorem insertRow_ok {t : Table} {r : Row} {t' : Table}
    (h : insertRow t r = Except.ok t') :
    t'.schema = t.schema ∧ t'.rows = t.rows ++ [insertVals t.schema r] := by
  unfold insertRow at h
  split at h
  · exact Except.noConfusion h
  · split at h
    · exact Except.noConfusion h
    · cases h
      exact ⟨rfl, rfl⟩

theorem colVal_insertValsAux {cols : List Col} {col : Col} (r : Row)
    (hnd : (cols.map Col.name).Nodup) (hmem : col ∈ cols) :
    colVal cols (insertValsAux cols r) col.name = applyAffinity col (rowGet r col.name) := by
  induction cols with
  | nil => simp at hmem
  | cons c cs ih =>
    simp only [List.map_cons, List.nodup_cons] at hnd
    rcases List.mem_cons.mp hmem with hc | hc
    · subst hc
      simp [insertValsAux, colVal]
    · have hne : c.name ≠ col.name := by
        intro heq
        exact hnd.1 (heq ▸ List.mem_map_of_mem Col.name hc)
      simp only [insertValsAux, List.map_cons, colVal, hne, if_false]
      exact ih hnd.2 hc

theorem notNullViolation_of {cols : List Col} {col : Col} (r : Row)
    (hmem : col ∈ cols) (hnn : col.notNull = true)
    (hnull : applyAffinity col (rowGet r col.name) = SQLVal.null) :
    notNullViolation cols (insertValsAux cols r) = true := by
  induction cols with
  | nil => simp at hmem
  | cons c cs ih =>
    rcases List.mem_cons.mp hmem with hc | hc
    · subst hc
      simp [insertValsAux, notNullViolation, hnn, hnull]
    · have hrec := ih hc
      simp only [insertValsAux] at hrec
      simp [insertValsAux, notNullViolation, hrec]

theorem insertRow_notNull_fails {t : Table} {r : Row}
    (h : notNullViolation t.schema.cols (insertVals t.schema r) = true) (t' : Table) :
    insertRow t r ≠ Except.ok t' := by
  intro hok
  unfold insertRow at hok
  rw [if_pos h] at hok
  exact Except.noConfusion hok

theorem insertRow_conflict_fails {t : Table} {r : Row}
    (hnonnull : ∀ v ∈ keyOf t.schema (insertVals t.schema r), v ≠ SQLVal.null)
    (hconf : ∃ old ∈ t.rows, keyOf t.schema old = keyOf t.schema (insertVals t.schema r))
    (t' : Table) : insertRow t r ≠ Except.ok t' := by
  intro hok
  unfold insertRow at hok
  split at hok
  · exact Except.noConfusion hok
  · rw [if_pos] at hok
    · exact Except.noConfusion hok
    · refine Bool.and_eq_true_iff.mpr ⟨?_, ?_⟩
      · exact List.all_eq_true.mpr (fun v hv => decide_eq_true (hnonnull v hv))
      · rcases hconf with ⟨old, hold, holdkey⟩
        exact List.any_eq_true.mpr ⟨old, hold, decide_eq_true holdkey⟩

theorem insertRows_ok_mono {table : String} {avail : List String} {t t' : Table}
    {rs : List Row} (h : insertRows table avail t rs = Except.ok t') :
    t'.schema = t.schema ∧ ∀ v ∈ t.rows, v ∈ t'.rows := by
  induction rs generalizing t with
  | nil =>
    unfold insertRows at h
    cases h
    exact ⟨rfl, fun v hv => hv⟩
  | cons r rest ih =>
    unfold insertRows at h
    split at h
    · next t1 hins =>
      obtain ⟨hsch, hrows⟩ := insertRow_ok hins
      obtain ⟨hsch', hmono⟩ := ih h
      refine ⟨hsch'.trans hsch, fun v hv => ?_⟩
      exact hmono v (hrows ▸ List.mem_append_left _ hv)
    · exact Except.noConfusion h

theorem insertRows_append {table : String} {avail : List String} {t t' : Table}
    {xs ys : List Row} (h : insertRows table avail t (xs ++ ys) = Except.ok t') :
    ∃ t1, insertRows table avail t xs = Except.ok t1 ∧
      insertRows table avail t1 ys = Except.ok t' := by
  induction xs generalizing t with
  | nil => exact ⟨t, rfl, h⟩
  | cons r rest ih =>
    rw [List.cons_append] at h
    unfold insertRows at h
    split at h
    · next t1 hins =>
      obtain ⟨t2, h2, h3⟩ := ih h
      refine ⟨t2, ?_, h3⟩
      unfold insertRows
      rw [hins]
      exact h2
    · exact Except.noConfusion h

theorem insertRows_cons_ok {table : String} {avail : List String} {t t' : Table}
    {r : Row} {rest : List Row}
    (h : insertRows table avail t (r :: rest) = Except.ok t') :
    ∃ t1, insertRow t (cleanVals table (projectRow avail r)) = Except.ok t1 ∧
      insertRows table avail t1 rest = Except.ok t' := by
  unfold insertRows at h
  split at h
  · next t1 hins => exact ⟨t1, hins, h⟩
  · exact Except.noConfusion h

theorem rowGet_cleanVals_not_modified (table : String) (r : Row) (c : String)
    (h : c ∉ cleanModifiedCols table) :
    rowGet (cleanVals table r) c = rowGet r c := by
  by_cases h1 : table = "routes"
  · subst h1
    simp only [cleanModifiedCols, reduceIte, List.mem_cons, List.not_mem_nil, or_false,
      not_or] at h
    simp only [cleanVals, reduceIte]
    rw [rowGet_rowSet_ne _ _ _ _ h.2, rowGet_rowSet_ne _ _ _ _ h.1]
  · by_cases h2 : table = "stops"
    · subst h2
      simp only [cleanModifiedCols, if_neg h1, reduceIte, List.mem_cons, List.not_mem_nil,
        or_false, not_or] at h
      simp only [cleanVals, if_neg h1, reduceIte]
      rw [rowGet_rowSet_ne _ _ _ _ h.2.2, rowGet_rowSet_ne _ _ _ _ h.2.1,
        rowGet_rowSet_ne _ _ _ _ h.1]
    · simp [cleanVals, h1, h2]

/-! Lemmas about the event log and the import loop. -/

/-- A list of events consisting of printed warnings only. -/
def warnOnly (l : List Event) : Prop := ∀ e ∈ l, ∃ m, e = Event.warn m

theorem warnOnly_nil : warnOnly [] := by
  intro e he
  simp at he

theorem warnOnly_single (m : String) : warnOnly [Event.warn m] := by
  intro e he
  simp at he
  exact ⟨m, he⟩

theorem warnOnly_append {l1 l2 : List Event} (h1 : warnOnly l1) (h2 : warnOnly l2) :
    warnOnly (l1 ++ l2) := by
  intro e he
  rcases List.mem_append.mp he with h | h
  · exact h1 e h
  · exact h2 e h

theorem importTable_events_warnOnly (table : String) (columns : List String)
    (csv : CSV) (t : Table) : warnOnly (importTable table columns csv t).2 := by
  unfold importTable
  split
  · exact warnOnly_nil
  · dsimp only
    split
    · exact warnOnly_nil
    · exact warnOnly_single _

theorem importTable_ok_schema {table : String} {columns : List String} {csv : CSV}
    {t t' : Table} (h : (importTable table columns csv t).1 = Except.ok t') :
    t'.schema = t.schema := by
  unfold importTable at h
  by_cases he : csv.rows.isEmpty
  · rw [if_pos he] at h
    cases h
    rfl
  · rw [if_neg he] at h
    dsimp only at h
    split at h
    · exact (insertRows_ok_mono h).1
    · exact Except.noConfusion h

theorem importEntry_events (src : SourceDir) (acc : DB × List Event)
    (e : String × String × List String) :
    ∃ ext, (importEntry src acc e).2 = acc.2 ++ ext ∧ warnOnly ext := by
  unfold importEntry
  cases hsrc : assocLookup src e.2.1 with
  | none =>
    dsimp only
    exact ⟨[Event.warn (missingFileMsg e.2.1)], rfl, warnOnly_single _⟩
  | some csv =>
    cases hdb : assocLookup acc.1.tables e.1 with
    | none =>
      dsimp only
      exact ⟨[], (List.append_nil _).symm, warnOnly_nil⟩
    | some t =>
      cases hit : importTable e.1 e.2.2 csv t with
      | mk res evs =>
        have hw : warnOnly evs := by
          have := importTable_events_warnOnly e.1 e.2.2 csv t
          rw [hit] at this
          exact this
        dsimp only
        rw [hit]
        cases res with
        | ok t' =>
          dsimp only
          exact ⟨evs, rfl, hw⟩
        | error m =>
          dsimp only
          exact ⟨evs, rfl, hw⟩

theorem runImports_events (src : SourceDir)
    (entries : List (String × String × List String)) :
    ∀ acc, ∃ ext, (runImports src entries acc).2 = acc.2 ++ ext ∧ warnOnly ext := by
  induction entries with
  | nil =>
    intro acc
    exact ⟨[], (List.append_nil _).symm, warnOnly_nil⟩
  | cons e rest ih =>
    intro acc
    obtain ⟨ext1, hext1, hw1⟩ := importEntry_events src acc e
    unfold runImports
    cases hie : importEntry src acc e with
    | mk res evs' =>
      rw [hie] at hext1
      cases res with
      | ok db' =>
        obtain ⟨ext2, hext2, hw2⟩ := ih (db', evs')
        refine ⟨ext1 ++ ext2, ?_, warnOnly_append hw1 hw2⟩
        rw [hext2]
        simp only at hext1
        rw [hext1, List.append_assoc]
      | error m =>
        refine ⟨ext1, ?_, hw1⟩
        simpa using hext1

theorem importEntry_ok_names {src : SourceDir} {acc : DB × List Event}
    {e : String × String × List String} {db' : DB} {evs' : List Event}
    (h : importEntry src acc e = (Except.ok db', evs')) :
    db'.tables.map Prod.fst = acc.1.tables.map Prod.fst := by
  unfold importEntry at h
  cases hsrc : assocLookup src e.2.1 with
  | none =>
    rw [hsrc] at h
    dsimp only at h
    cases h
    rfl
  | some csv =>
    rw [hsrc] at h
    dsimp only at h
    cases hdb : assocLookup acc.1.tables e.1 with
    | none =>
      rw [hdb] at h
      dsimp only at h
      exact Except.noConfusion (congrArg Prod.fst h)
    | some t =>
      rw [hdb] at h
      dsimp only at h
      cases hit : importTable e.1 e.2.2 csv t with
      | mk res evs =>
        rw [hit] at h
        cases res with
        | ok t' =>
          dsimp only at h
          cases h
          exact assocSet_map_fst _ _ _
        | error m =>
          dsimp only at h
          exact Except.noConfusion (congrArg Prod.fst h)

theorem runImports_ok_names {src : SourceDir} :
    ∀ (entries : List (String × String × List String)) (acc : DB × List Event)
      (db' : DB) (evs' : List Event),
      runImports src entries acc = (Except.ok db', evs') →
      db'.tables.map Prod.fst = acc.1.tables.map Prod.fst := by
  intro entries
  induction entries with
  | nil =>
    intro acc db' evs' h
    unfold runImports at h
    cases h
    rfl
  | cons e rest ih =>
    intro acc db' evs' h
    unfold runImports at h
    cases hie : importEntry src acc e with
    | mk res evs1 =>
      rw [hie] at h
      cases res with
      | ok db1 => exact (ih (db1, evs1) db' evs' h).trans (importEntry_ok_names hie)
      | error m => exact Except.noConfusion (congrArg Prod.fst h)

/-- Invariant of the import loop: every imported table is present in the
store with its target schema. -/
def tablesInv (db : DB) : Prop :=
  ∀ e ∈ importsList, (assocLookup db.tables e.1).map Table.schema = some (schemaFor e.1)

theorem tablesInv_init : tablesInv initDB := by
  unfold tablesInv
  decide

theorem importEntry_ok_inv {src : SourceDir} {acc : DB × List Event}
    {e : String × String × List String} {db' : DB} {evs' : List Event}
    (hinv : tablesInv acc.1) (h : importEntry src acc e = (Except.ok db', evs')) :
    tablesInv db' := by
  unfold importEntry at h
  cases hsrc : assocLookup src e.2.1 with
  | none =>
    rw [hsrc] at h
    dsimp only at h
    cases h
    exact hinv
  | some csv =>
    rw [hsrc] at h
    dsimp only at h
    cases hdb : assocLookup acc.1.tables e.1 with
    | none =>
      rw [hdb] at h
      dsimp only at h
      exact Except.noConfusion (congrArg Prod.fst h)
    | some t =>
      rw [hdb] at h
      dsimp only at h
      cases hit : importTable e.1 e.2.2 csv t with
      | mk res evs =>
        rw [hit] at h
        cases res with
        | ok t' =>
          dsimp only at h
          cases h
          intro e' he'
          by_cases hee : e'.1 = e.1
          · have hlook := hinv e' he'
            rw [hee] at hlook ⊢
            rw [hdb] at hlook
            have ht : t.schema = schemaFor e.1 := by simpa using hlook
            have hsch : t'.schema = t.schema :=
              @importTable_ok_schema _ _ _ _ t' (by rw [hit])
            rw [assocLookup_assocSet_self _ _ t _ hdb]
            simp [hsch, ht]
          · rw [assocLookup_assocSet_ne _ _ _ _ hee]
            exact hinv e' he'
        | error m =>
          dsimp only at h
          exact Except.noConfusion (congrArg Prod.fst h)

theorem importEntry_ok_untouched {src : SourceDir} {acc : DB × List Event}
    {e : String × String × List String} {db' : DB} {evs' : List Event} (tbl : String)
    (h : importEntry src acc e = (Except.ok db', evs'))
    (hne : e.1 = tbl → assocLookup src e.2.1 = none) :
    assocLookup db'.tables tbl = assocLookup acc.1.tables tbl := by
  unfold importEntry at h
  cases hsrc : assocLookup src e.2.1 with
  | none =>
    rw [hsrc] at h
    dsimp only at h
    cases h
    rfl
  | some csv =>
    have hne' : tbl ≠ e.1 := by
      intro hh
      rw [hne hh.symm] at hsrc
      exact Option.noConfusion hsrc
    rw [hsrc] at h
    dsimp only at h
    cases hdb : assocLookup acc.1.tables e.1 with
    | none =>
      rw [hdb] at h
      dsimp only at h
      exact Except.noConfusion (congrArg Prod.fst h)
    | some t =>
      rw [hdb] at h
      dsimp only at h
      cases hit : importTable e.1 e.2.2 csv t with
      | mk res evs =>
        rw [hit] at h
        cases res with
        | ok t' =>
          dsimp only at h
          cases h
          exact assocLookup_assocSet_ne _ _ _ _ hne'
        | error m =>
          dsimp only at h
          exact Except.noConfusion (congrArg Prod.fst h)

theorem runImports_ok_untouched {src : SourceDir} (tbl : String) :
    ∀ (entries : List (String × String × List String)) (acc : DB × List Event)
      (db' : DB) (evs' : List Event),
      (∀ e' ∈ entries, e'.1 = tbl → assocLookup src e'.2.1 = none) →
      runImports src entries acc = (Except.ok db', evs') →
      assocLookup db'.tables tbl = assocLookup acc.1.tables tbl := by
  intro entries
  induction entries with
  | nil =>
    intro acc db' evs' _ h
    unfold runImports at h
    cases h
    rfl
  | cons e rest ih =>
    intro acc db' evs' hmiss h
    unfold runImports at h
    cases hie : importEntry src acc e with
    | mk res evs1 =>
      rw [hie] at h
      cases res with
      | ok db1 =>
        have h1 := ih (db1, evs1) db' evs'
          (fun e' he' => hmiss e' (List.mem_cons_of_mem _ he')) h
        have h2 := importEntry_ok_untouched tbl hie (hmiss e (List.mem_cons_self _ _))
        exact h1.trans h2
      | error m => exact Except.noConfusion (congrArg Prod.fst h)

theorem runImports_warn_missing {src : SourceDir}
    (e : String × String × List String) :
    ∀ (entries : List (String × String × List String)) (acc : DB × List Event)
      (db' : DB) (evs' : List Event),
      e ∈ entries → assocLookup src e.2.1 = none →
      runImports src entries acc = (Except.ok db', evs') →
      Event.warn (missingFileMsg e.2.1) ∈ evs' := by
  intro entries
  induction entries with
  | nil =>
    intro acc db' evs' hmem
    simp at hmem
  | cons e0 rest ih =>
    intro acc db' evs' hmem hnone h
    unfold runImports at h
    cases hie : importEntry src acc e0 with
    | mk res evs1 =>
      rw [hie] at h
      cases res with
      | ok db1 =>
        rcases List.mem_cons.mp hmem with he0 | hrest
        · subst he0
          unfold importEntry at hie
          rw [hnone] at hie
          dsimp only at hie
          have hev : evs1 = acc.2 ++ [Event.warn (missingFileMsg e.2.1)] :=
            (congrArg Prod.snd hie).symm
          have h' : runImports src rest (db1, evs1) = (Except.ok db', evs') := h
          obtain ⟨ext, hext, -⟩ := runImports_events src rest (db1, evs1)
          rw [h'] at hext
          dsimp only at hext
          rw [hext, hev]
          simp
        · exact ih (db1, evs1) db' evs' hrest hnone h
      | error m => exact Except.noConfusion (congrArg Prod.fst h)

theorem colVal_insertVals {sch : TableSchema} {col : Col} (r : Row)
    (hnd : (sch.cols.map Col.name).Nodup) (hmem : col ∈ sch.cols) :
    colVal sch.cols (insertVals sch r) col.name = applyAffinity col (rowGet r col.name) :=
  colVal_insertValsAux r hnd hmem

/-- Central duplicate-key lemma: when a source file holds two rows that
agree, with present values, on every primary-key column of the target
schema, importing that file into a table carrying the schema cannot
succeed: either some key column is unavailable and the NOT NULL check
raises, or the INSERT of the second row hits the UNIQUE primary-key check. -/
theorem importTable_dup_fails (tbl : String) (cols : List String) (csv : CSV)
    (l1 l2 l3 : List Row) (r1 r2 : Row) (sch : TableSchema)
    (hnd : (sch.cols.map Col.name).Nodup)
    (hpk : ∀ c ∈ sch.pk, ∃ col ∈ sch.cols, col.name = c ∧ col.notNull = true)
    (hcln : ∀ c ∈ sch.pk, c ∉ cleanModifiedCols tbl)
    (hrows : csv.rows = l1 ++ r1 :: (l2 ++ r2 :: l3))
    (hkey : ∀ c ∈ sch.pk, rowGet r1 c = rowGet r2 c ∧ (rowGet r1 c).isSome = true)
    (t : Table) (hts : t.schema = sch) (t' : Table) :
    (importTable tbl cols csv t).1 ≠ Except.ok t' := by
  intro hok
  unfold importTable at hok
  have hne : ¬(csv.rows.isEmpty = true) := by
    rw [hrows]
    cases l1 <;> simp
  rw [if_neg hne] at hok
  dsimp only at hok
  split at hok
  next hall =>
    rw [hrows] at hok
    generalize hAV : cols.filter (fun c => decide (c ∈ csv.cols)) = avail at hok
    obtain ⟨tA, hA, hA2⟩ := insertRows_append hok
    obtain ⟨tB, hB, hB2⟩ := insertRows_cons_ok hA2
    have htA : tA.schema = sch := (insertRows_ok_mono hA).1.trans hts
    by_cases hallpk : ∀ c ∈ sch.pk, c ∈ avail
    · have hkeyval : ∀ c ∈ sch.pk,
          colVal sch.cols (insertVals sch (cleanVals tbl (projectRow avail r1))) c =
            colVal sch.cols (insertVals sch (cleanVals tbl (projectRow avail r2))) c ∧
          colVal sch.cols (insertVals sch (cleanVals tbl (projectRow avail r1))) c ≠
            SQLVal.null := by
        intro c hc
        obtain ⟨col, hcolmem, hcolname, hcolnn⟩ := hpk c hc
        obtain ⟨hkeq, hksome⟩ := hkey c hc
        obtain ⟨s, hs⟩ := Option.isSome_iff_exists.mp hksome
        have hv1 : rowGet (cleanVals tbl (projectRow avail r1)) c = some s := by
          rw [rowGet_cleanVals_not_modified _ _ _ (hcln c hc), rowGet_projectRow,
            if_pos (hallpk c hc), hs]
        have hv2 : rowGet (cleanVals tbl (projectRow avail r2)) c = some s := by
          rw [rowGet_cleanVals_not_modified _ _ _ (hcln c hc), rowGet_projectRow,
            if_pos (hallpk c hc), ← hkeq, hs]
        have e1 : colVal sch.cols (insertVals sch (cleanVals tbl (projectRow avail r1))) c
            = applyAffinity col (some s) := by
          rw [← hcolname, colVal_insertVals _ hnd hcolmem, hcolname, hv1]
        have e2 : colVal sch.cols (insertVals sch (cleanVals tbl (projectRow avail r2))) c
            = applyAffinity col (some s) := by
          rw [← hcolname, colVal_insertVals _ hnd hcolmem, hcolname, hv2]
        rw [e1, e2]
        exact ⟨rfl, applyAffinity_some_ne_null col s⟩
      have hkeyeq : keyOf sch (insertVals sch (cleanVals tbl (projectRow avail r1))) =
          keyOf sch (insertVals sch (cleanVals tbl (projectRow avail r2))) := by
        unfold keyOf
        exact List.map_congr_left (fun c hc => (hkeyval c hc).1)
      have hnonnull : ∀ v ∈ keyOf sch (insertVals sch (cleanVals tbl (projectRow avail r2))),
          v ≠ SQLVal.null := by
        intro v hv
        rw [← hkeyeq] at hv
        unfold keyOf at hv
        obtain ⟨c, hc, hcv⟩ := List.mem_map.mp hv
        rw [← hcv]
        exact (hkeyval c hc).2
      have htB : tB.schema = sch := (insertRow_ok hB).1.trans htA
      have hvals1mem : insertVals sch (cleanVals tbl (projectRow avail r1)) ∈ tB.rows := by
        obtain ⟨hBs, hBr⟩ := insertRow_ok hB
        rw [hBr, htA]
        exact List.mem_append_right _ (List.mem_singleton.mpr rfl)
      obtain ⟨tC, hC, hC2⟩ := insertRows_append hB2
      obtain ⟨hCs, hCmono⟩ := insertRows_ok_mono hC
      have htC : tC.schema = sch := hCs.trans htB
      obtain ⟨tD, hD, -⟩ := insertRows_cons_ok hC2
      refine insertRow_conflict_fails ?_ ?_ tD hD
      · rw [htC]
        exact hnonnull
      · rw [htC]
        exact ⟨_, hCmono _ hvals1mem, hkeyeq⟩
    · push_neg at hallpk
      obtain ⟨c, hc, hcnot⟩ := hallpk
      obtain ⟨col, hcolmem, hcolname, hcolnn⟩ := hpk c hc
      have hnull : applyAffinity col
          (rowGet (cleanVals tbl (projectRow avail r1)) col.name) = SQLVal.null := by
        rw [hcolname, rowGet_cleanVals_not_modified _ _ _ (hcln c hc), rowGet_projectRow,
          if_neg hcnot]
        rfl
      have hviol := notNullViolation_of (cleanVals tbl (projectRow avail r1)) hcolmem hcolnn hnull
      have hviol' : notNullViolation tA.schema.cols
          (insertVals tA.schema (cleanVals tbl (projectRow avail r1))) = true := by
        rw [htA]
        exact hviol
      exact insertRow_notNull_fails hviol' tB hB
  next hall => exact Except.noConfusion hok

theorem runImports_fail {src : SourceDir} (e : String × String × List String)
    (csv : CSV) (hmemFull : e ∈ importsList)
    (hsrc : assocLookup src e.2.1 = some csv)
    (hbad : ∀ t : Table, t.schema = schemaFor e.1 →
      ∀ t', (importTable e.1 e.2.2 csv t).1 ≠ Except.ok t') :
    ∀ (entries : List (String × String × List String)), e ∈ entries →
      ∀ acc : DB × List Event, tablesInv acc.1 →
      ∃ m, (runImports src entries acc).1 = Except.error m := by
  intro entries
  induction entries with
  | nil =>
    intro hmem
    simp at hmem
  | cons e0 rest ih =>
    intro hmem acc hinv
    unfold runImports
    cases hie : importEntry src acc e0 with
    | mk res evs1 =>
      cases res with
      | error m => exact ⟨m, rfl⟩
      | ok db1 =>
        rcases List.mem_cons.mp hmem with he0 | hrest
        · exfalso
          subst he0
          unfold importEntry at hie
          rw [hsrc] at hie
          dsimp only at hie
          cases hdb : assocLookup acc.1.tables e.1 with
          | none =>
            rw [hdb] at hie
            dsimp only at hie
            exact Except.noConfusion (congrArg Prod.fst hie)
          | some t =>
            rw [hdb] at hie
            dsimp only at hie
            have hts : t.schema = schemaFor e.1 := by
              have := hinv e hmemFull
              rw [hdb] at this
              simpa using this
            cases hit : importTable e.1 e.2.2 csv t with
            | mk res2 evs2 =>
              rw [hit] at hie
              cases res2 with
              | ok t2 => exact hbad t hts t2 (by rw [hit])
              | error m =>
                dsimp only at hie
                exact Except.noConfusion (congrArg Prod.fst hie)
        · exact ih hrest (db1, evs1) (importEntry_ok_inv hinv hie)

/-! Lemmas about the index loop. -/

theorem createIndicesAux_tables (idxOk : String → Bool) :
    ∀ (ns : List String) (acc : DB × List Event),
      (createIndicesAux idxOk ns acc).1.tables = acc.1.tables := by
  intro ns
  induction ns with
  | nil =>
    intro acc
    rfl
  | cons n rest ih =>
    intro acc
    unfold createIndicesAux
    by_cases h1 : n ∈ acc.1.indices
    · rw [if_pos h1]
      exact ih acc
    · rw [if_neg h1]
      by_cases h2 : idxOk n = true
      · rw [if_pos h2]
        exact ih _
      · rw [if_neg h2]
        exact ih _

theorem createIndicesAux_events (idxOk : String → Bool) :
    ∀ (ns : List String) (acc : DB × List Event),
      ∃ ext, (createIndicesAux idxOk ns acc).2 = acc.2 ++ ext ∧ warnOnly ext := by
  intro ns
  induction ns with
  | nil =>
    intro acc
    exact ⟨[], (List.append_nil _).symm, warnOnly_nil⟩
  | cons n rest ih =>
    intro acc
    unfold createIndicesAux
    by_cases h1 : n ∈ acc.1.indices
    · rw [if_pos h1]
      exact ih acc
    · rw [if_neg h1]
      by_cases h2 : idxOk n = true
      · rw [if_pos h2]
        exact ih _
      · rw [if_neg h2]
        obtain ⟨ext, hext, hw⟩ := ih (acc.1, acc.2 ++ [Event.warn ("Indice " ++ n ++ ": errore")])
        refine ⟨[Event.warn ("Indice " ++ n ++ ": errore")] ++ ext, ?_,
          warnOnly_append (warnOnly_single _) hw⟩
        rw [hext]
        simp

theorem createIndicesAux_indices_mono (idxOk : String → Bool) :
    ∀ (ns : List String) (acc : DB × List Event) (n : String),
      n ∈ acc.1.indices → n ∈ (createIndicesAux idxOk ns acc).1.indices := by
  intro ns
  induction ns with
  | nil =>
    intro acc n hn
    exact hn
  | cons n0 rest ih =>
    intro acc n hn
    unfold createIndicesAux
    by_cases h1 : n0 ∈ acc.1.indices
    · rw [if_pos h1]
      exact ih acc n hn
    · rw [if_neg h1]
      by_cases h2 : idxOk n0 = true
      · rw [if_pos h2]
        exact ih _ n (List.mem_append_left _ hn)
      · rw [if_neg h2]
        exact ih _ n hn

theorem createIndicesAux_added (idxOk : String → Bool) :
    ∀ (ns : List String) (acc : DB × List Event) (n : String),
      n ∈ ns → idxOk n = true → n ∈ (createIndicesAux idxOk ns acc).1.indices := by
  intro ns
  induction ns with
  | nil =>
    intro acc n hn
    simp at hn
  | cons n0 rest ih =>
    intro acc n hn hok
    unfold createIndicesAux
    rcases List.mem_cons.mp hn with he | hrest
    · subst he
      by_cases h1 : n ∈ acc.1.indices
      · rw [if_pos h1]
        exact createIndicesAux_indices_mono idxOk rest acc n h1
      · rw [if_neg h1, if_pos hok]
        exact createIndicesAux_indices_mono idxOk rest _ n
          (List.mem_append_right _ (List.mem_singleton.mpr rfl))
    · by_cases h1 : n0 ∈ acc.1.indices
      · rw [if_pos h1]
        exact ih acc n hrest hok
      · rw [if_neg h1]
        by_cases h2 : idxOk n0 = true
        · rw [if_pos h2]
          exact ih _ n hrest hok
        · rw [if_neg h2]
          exact ih _ n hrest hok

theorem createIndicesAux_noop (idxOk : String → Bool) :
    ∀ (ns : List String) (acc : DB × List Event),
      (∀ n ∈ ns, idxOk n = true → n ∈ acc.1.indices) →
      (createIndicesAux idxOk ns acc).1 = acc.1 := by
  intro ns
  induction ns with
  | nil =>
    intro acc _
    rfl
  | cons n0 rest ih =>
    intro acc hall
    unfold createIndicesAux
    by_cases h1 : n0 ∈ acc.1.indices
    · rw [if_pos h1]
      exact ih acc (fun n hn => hall n (List.mem_cons_of_mem _ hn))
    · rw [if_neg h1]
      by_cases h2 : idxOk n0 = true
      · exact absurd (hall n0 (List.mem_cons_self _ _) h2) h1
      · rw [if_neg h2]
        exact ih _ (fun n hn => hall n (List.mem_cons_of_mem _ hn))

/-! Shape of the whole pipeline as a function of the import outcome. -/

theorem create_database_eq (prior : Option DB) (src : SourceDir) (idxOk : String → Bool)
    (integrity : String) :
    create_database prior src idxOk integrity =
      match runImports src importsList (initDB, []) with
      | (Except.error m, evs) => (Except.error m, evs)
      | (Except.ok db1, evs1) =>
        let step := createIndicesAux idxOk indexNames (db1, evs1)
        let evs3 := step.2 ++ [Event.vacuum, Event.analyze, Event.integrityCheck integrity]
        if integrity = "ok" then (Except.ok step.1, evs3)
        else (Except.error "integrity check failed", evs3) := rfl

theorem main_pipeline_of_imports_error {prior : Option DB} {src : SourceDir}
    {idxOk : String → Bool} {integ m : String} {evs : List Event}
    (h : runImports src importsList (initDB, []) = (Except.error m, evs)) :
    main_pipeline prior src idxOk integ = { exitCode := 1, events := evs, db := none } := by
  unfold main_pipeline
  rw [create_database_eq, h]

theorem main_pipeline_of_imports_ok {prior : Option DB} {src : SourceDir}
    {idxOk : String → Bool} {integ : String} {db1 : DB} {evs1 : List Event}
    (h : runImports src importsList (initDB, []) = (Except.ok db1, evs1)) :
    main_pipeline prior src idxOk integ =
      if integ = "ok" then
        { exitCode := 0,
          events := (createIndicesAux idxOk indexNames (db1, evs1)).2 ++
            [Event.vacuum, Event.analyze, Event.integrityCheck integ] ++ [Event.manifest],
          db := some (createIndicesAux idxOk indexNames (db1, evs1)).1 }
      else
        { exitCode := 1,
          events := (createIndicesAux idxOk indexNames (db1, evs1)).2 ++
            [Event.vacuum, Event.analyze, Event.integrityCheck integ],
          db := none } := by
  unfold main_pipeline
  rw [create_database_eq, h]
  dsimp only
  by_cases hi : integ = "ok"
  · rw [if_pos hi, if_pos hi]
  · rw [if_neg hi, if_neg hi]

/-! Decidable facts about the concrete imports map and initial store. -/

theorem importsList_pk_facts : ∀ e ∈ importsList,
    ((schemaFor e.1).cols.map Col.name).Nodup ∧
    (∀ c ∈ (schemaFor e.1).pk,
      ∃ col ∈ (schemaFor e.1).cols, col.name = c ∧ col.notNull = true) ∧
    (∀ c ∈ (schemaFor e.1).pk, c ∉ cleanModifiedCols e.1) := by
  decide

theorem importsList_names_unique : ∀ e ∈ importsList, ∀ e' ∈ importsList,
    e.1 = e'.1 → e = e' := by
  decide

theorem initDB_lookup_empty : ∀ e ∈ importsList,
    assocLookup initDB.tables e.1 = some (emptyTable (schemaFor e.1)) := by
  decide

theorem warnOnly_manifest_not_mem {l : List Event} (h : warnOnly l) :
    Event.manifest ∉ l := by
  intro hm
  obtain ⟨m, hm2⟩ := h _ hm
  exact Event.noConfusion hm2

theorem importEntry_ok_indices {src : SourceDir} {acc : DB × List Event}
    {e : String × String × List String} {db' : DB} {evs' : List Event}
    (h : importEntry src acc e = (Except.ok db', evs')) :
    db'.indices = acc.1.indices := by
  unfold importEntry at h
  cases hsrc : assocLookup src e.2.1 with
  | none =>
    rw [hsrc] at h
    dsimp only at h
    cases h
    rfl
  | some csv =>
    rw [hsrc] at h
    dsimp only at h
    cases hdb : assocLookup acc.1.tables e.1 with
    | none =>
      rw [hdb] at h
      dsimp only at h
      exact Except.noConfusion (congrArg Prod.fst h)
    | some t =>
      rw [hdb] at h
      dsimp only at h
      cases hit : importTable e.1 e.2.2 csv t with
      | mk res evs =>
        rw [hit] at h
        cases res with
        | ok t' =>
          dsimp only at h
          cases h
          rfl
        | error m =>
          dsimp only at h
          exact Except.noConfusion (congrArg Prod.fst h)

theorem runImports_ok_indices {src : SourceDir} :
    ∀ (entries : List (String × String × List String)) (acc : DB × List Event)
      (db' : DB) (evs' : List Event),
      runImports src entries acc = (Except.ok db', evs') →
      db'.indices = acc.1.indices := by
  intro entries
  induction entries with
  | nil =>
    intro acc db' evs' h
    unfold runImports at h
    cases h
    rfl
  | cons e rest ih =>
    intro acc db' evs' h
    unfold runImports at h
    cases hie : importEntry src acc e with
    | mk res evs1 =>
      rw [hie] at h
      cases res with
      | ok db1 => exact (ih (db1, evs1) db' evs' h).trans (importEntry_ok_indices hie)
      | error m => exact Except.noConfusion (congrArg Prod.fst h)

theorem createIndicesAux_warn (idxOk : String → Bool) :
    ∀ (ns : List String) (acc : DB × List Event) (n : String),
      n ∈ ns → idxOk n = false → n ∉ acc.1.indices →
      Event.warn ("Indice " ++ n ++ ": errore") ∈ (createIndicesAux idxOk ns acc).2 := by
  intro ns
  induction ns with
  | nil =>
    intro acc n hn
    simp at hn
  | cons n0 rest ih =>
    intro acc n hn hok hnotin
    unfold createIndicesAux
    rcases List.mem_cons.mp hn with he | hrest
    · subst he
      rw [if_neg hnotin, if_neg (by simp [hok])]
      obtain ⟨ext, hext, -⟩ :=
        createIndicesAux_events idxOk rest (acc.1, acc.2 ++ [Event.warn ("Indice " ++ n ++ ": errore")])
      rw [hext]
      simp
    · by_cases h1 : n0 ∈ acc.1.indices
      · rw [if_pos h1]
        exact ih acc n hrest hok hnotin
      · rw [if_neg h1]
        by_cases h2 : idxOk n0 = true
        · rw [if_pos h2]
          refine ih _ n hrest hok ?_
          intro hmem
          rcases List.mem_append.mp hmem with hA | hB
          · exact hnotin hA
          · rw [List.mem_singleton.mp hB] at hok
            rw [hok] at h2
            exact Bool.noConfusion h2
        · rw [if_neg h2]
          exact ih _ n hrest hok hnotin

/-- The warnings printed by a run whose source directory has none of the
eight files. -/
def missingFileWarns : List Event :=
  importsList.map (fun e => Event.warn (missingFileMsg e.2.1))

/-! Claim C1. -/

/-- A source directory whose only file is a stop_times table with a
non-numeric stop_sequence value. -/
def seqSrc : SourceDir := [
  ("stop_times.txt",
    { cols := ["trip_id", "arrival_time", "departure_time", "stop_id", "stop_sequence"],
      rows := [[("trip_id", some "T1"), ("arrival_time", some "06:00:00"),
                ("departure_time", some "06:00:00"), ("stop_id", some "S1"),
                ("stop_sequence", some "abc")]] })]

/-- Claim C1 counterexample: a stop_times row whose stop_sequence field is
the non-numeric text abc does not make the build fail. The run exits with
code 0, the manifest step runs, and the value is stored verbatim as text in
the INTEGER-affinity column — SQLite raises no error, so the claimed fatal
ImportFailure never happens. -/
theorem C1_counterexample :
    (main_pipeline none seqSrc (fun _ => true) "ok").exitCode = 0 ∧
    Event.manifest ∈ (main_pipeline none seqSrc (fun _ => true) "ok").events ∧
    ((main_pipeline none seqSrc (fun _ => true) "ok").db.bind
        (fun db => assocLookup db.tables "stop_times")).map Table.rows =
      some [[SQLVal.text "T1", SQLVal.text "06:00:00", SQLVal.text "06:00:00",
             SQLVal.text "S1", SQLVal.text "abc", SQLVal.null, SQLVal.null, SQLVal.null,
             SQLVal.null, SQLVal.null]] := by
  decide

/-- Claim C1 (amended): a source row whose sequence field holds text that
is not a well-formed integer or real literal (so outside the range the
INTEGER affinity of SQLite converts) is not rejected: the text is stored
verbatim as TEXT, the INSERT succeeds when the NOT NULL fields are
present, and the import of the stop_times file completes normally. -/
theorem C1_nonnumeric_sequence_accepted (s tid arr dep sid : String) (r : Row)
    (hseq : sqliteNum? s = none)
    (h1 : rowGet r "trip_id" = some tid)
    (h2 : rowGet r "arrival_time" = some arr)
    (h3 : rowGet r "departure_time" = some dep)
    (h4 : rowGet r "stop_id" = some sid)
    (h5 : rowGet r "stop_sequence" = some s) :
    (importTable "stop_times"
        ["trip_id", "arrival_time", "departure_time", "stop_id", "stop_sequence",
         "stop_headsign", "pickup_type", "drop_off_type", "shape_dist_traveled", "timepoint"]
        { cols := ["trip_id", "arrival_time", "departure_time", "stop_id", "stop_sequence",
                   "stop_headsign", "pickup_type", "drop_off_type", "shape_dist_traveled",
                   "timepoint"],
          rows := [r] }
        (emptyTable stopTimesSchema)).1 =
      Except.ok
        { schema := stopTimesSchema,
          rows := [insertVals stopTimesSchema (cleanVals "stop_times"
          (projectRow ["trip_id", "arrival_time", "departure_time", "stop_id",
            "stop_sequence", "stop_headsign", "pickup_type", "drop_off_type",
            "shape_dist_traveled", "timepoint"] r))] } ∧
    colVal stopTimesSchema.cols (insertVals stopTimesSchema (cleanVals "stop_times"
        (projectRow ["trip_id", "arrival_time", "departure_time", "stop_id", "stop_sequence",
          "stop_headsign", "pickup_type", "drop_off_type", "shape_dist_traveled",
          "timepoint"] r))) "stop_sequence" = SQLVal.text s := by
  constructor
  · simp [importTable, insertRows, insertRow, insertVals, insertValsAux, keyOf, colVal,
      notNullViolation, cleanVals, cleanAccessedCols, rowGet_projectRow, applyAffinity,
      emptyTable, stopTimesSchema, h1, h2, h3, h4, h5, hseq]
  · simp [insertVals, insertValsAux, colVal, cleanVals, rowGet_projectRow, applyAffinity,
      stopTimesSchema, h5, hseq]

/-- Claim C1 witness: the amended theorem applied to a concrete row with
stop_sequence abc. -/
theorem C1_witness :
    (importTable "stop_times"
        ["trip_id", "arrival_time", "departure_time", "stop_id", "stop_sequence",
         "stop_headsign", "pickup_type", "drop_off_type", "shape_dist_traveled", "timepoint"]
        { cols := ["trip_id", "arrival_time", "departure_time", "stop_id", "stop_sequence",
                   "stop_headsign", "pickup_type", "drop_off_type", "shape_dist_traveled",
                   "timepoint"],
          rows := [[("trip_id", some "T1"), ("arrival_time", some "06:00:00"),
                    ("departure_time", some "06:00:00"), ("stop_id", some "S1"),
                    ("stop_sequence", some "abc")]] }
        (emptyTable stopTimesSchema)).1 =
      Except.ok
        { schema := stopTimesSchema,
          rows := [insertVals stopTimesSchema (cleanVals "stop_times"
          (projectRow ["trip_id", "arrival_time", "departure_time", "stop_id",
            "stop_sequence", "stop_headsign", "pickup_type", "drop_off_type",
            "shape_dist_traveled", "timepoint"]
            [("trip_id", some "T1"), ("arrival_time", some "06:00:00"),
             ("departure_time", some "06:00:00"), ("stop_id", some "S1"),
             ("stop_sequence", some "abc")]))] } ∧
    colVal stopTimesSchema.cols (insertVals stopTimesSchema (cleanVals "stop_times"
        (projectRow ["trip_id", "arrival_time", "departure_time", "stop_id", "stop_sequence",
          "stop_headsign", "pickup_type", "drop_off_type", "shape_dist_traveled",
          "timepoint"]
          [("trip_id", some "T1"), ("arrival_time", some "06:00:00"),
           ("departure_time", some "06:00:00"), ("stop_id", some "S1"),
           ("stop_sequence", some "abc")]))) "stop_sequence" = SQLVal.text "abc" :=
  C1_nonnumeric_sequence_accepted "abc" "T1" "06:00:00" "06:00:00" "S1" _
    (by decide) (by decide) (by decide) (by decide) (by decide) (by decide)

/-! Claim C2. -/

/-- Claim C2 counterexample: the store of a successful build does not contain
exactly the eight GTFS tables: it holds nine tables, the extra one being
the Room metadata table room_master_table, which is not one of the eight. -/
theorem C2_counterexample :
    ((main_pipeline none [] (fun _ => true) "ok").db.map
        (fun db => db.tables.map Prod.fst)) =
      some ["room_master_table", "routes", "stops", "trips", "stop_times", "calendar",
            "calendar_dates", "shapes", "agency"] ∧
    "room_master_table" ∉ ["agency", "routes", "stops", "trips", "stop_times", "calendar",
      "calendar_dates", "shapes"] := by
  decide

/-- Claim C2 (amended): after any successful build the store contains
exactly the eight GTFS tables plus the Room metadata table
room_master_table, and no other table. -/
theorem C2_store_tables (prior : Option DB) (src : SourceDir) (idxOk : String → Bool)
    (integ : String) (db : DB)
    (h : (main_pipeline prior src idxOk integ).db = some db) :
    db.tables.map Prod.fst =
      ["room_master_table", "routes", "stops", "trips", "stop_times", "calendar",
       "calendar_dates", "shapes", "agency"] := by
  cases hrun : runImports src importsList (initDB, []) with
  | mk res evs =>
    cases res with
    | error m =>
      rw [main_pipeline_of_imports_error hrun] at h
      exact Option.noConfusion h
    | ok db1 =>
      rw [main_pipeline_of_imports_ok hrun] at h
      by_cases hi : integ = "ok"
      · rw [if_pos hi] at h
        dsimp only at h
        have hdb : db = (createIndicesAux idxOk indexNames (db1, evs)).1 :=
          (Option.some.inj h).symm
        rw [hdb, createIndicesAux_tables idxOk indexNames (db1, evs)]
        rw [runImports_ok_names importsList (initDB, []) db1 evs hrun]
        rfl
      · rw [if_neg hi] at h
        exact Option.noConfusion h

/-- Claim C2 witness: the amended theorem applied to a concrete build. -/
theorem C2_witness :
    ∃ db, (main_pipeline none [] (fun _ => true) "ok").db = some db ∧
      db.tables.map Prod.fst =
        ["room_master_table", "routes", "stops", "trips", "stop_times", "calendar",
         "calendar_dates", "shapes", "agency"] :=
  ⟨_, rfl, C2_store_tables none [] (fun _ => true) "ok" _ rfl⟩

/-! Claim C3. -/

/-- A routes file lacking the route_long_name column (and several other
requested columns), with one data row. -/
def shortRoutesSrc : SourceDir := [
  ("routes.txt",
    { cols := ["route_id", "route_short_name"],
      rows := [[("route_id", some "R1"), ("route_short_name", some "X")]] })]

/-- Claim C3 counterexample: a requested-but-absent column is not always
non-fatal. A routes file without the route_long_name column makes the
data[route_long_name] access of the cleaning block raise KeyError, so the whole
build aborts with exit code 1 and no store, instead of completing with the
column left null. -/
theorem C3_counterexample :
    (main_pipeline none shortRoutesSrc (fun _ => true) "ok").exitCode = 1 ∧
    (main_pipeline none shortRoutesSrc (fun _ => true) "ok").db = none ∧
    Event.manifest ∉ (main_pipeline none shortRoutesSrc (fun _ => true) "ok").events := by
  decide

/-- Claim C3 (amended): a column requested by the schema but absent from
the source file is reported with a warning and, provided it is neither
referenced by the defaulting rules of the table nor NOT NULL in the schema, it
is simply left NULL and ingestion of the table completes. Shown for the
trips table with block_id absent: the import succeeds, the warning is
logged, and the stored row carries NULL in block_id. -/
theorem C3_missing_nullable_column (tid rid sid : String) (r : Row)
    (h1 : rowGet r "trip_id" = some tid)
    (h2 : rowGet r "route_id" = some rid)
    (h3 : rowGet r "service_id" = some sid) :
    (importTable "trips"
        ["trip_id", "route_id", "service_id", "trip_headsign", "trip_short_name",
         "direction_id", "block_id", "shape_id", "wheelchair_accessible", "bikes_allowed"]
        { cols := ["trip_id", "route_id", "service_id", "trip_headsign", "trip_short_name",
                   "direction_id", "shape_id", "wheelchair_accessible", "bikes_allowed"],
          rows := [r] }
        (emptyTable tripsSchema)).1 =
      Except.ok
        { schema := tripsSchema,
          rows := [insertVals tripsSchema (cleanVals "trips"
            (projectRow ["trip_id", "route_id", "service_id", "trip_headsign",
              "trip_short_name", "direction_id", "shape_id", "wheelchair_accessible",
              "bikes_allowed"] r))] } ∧
    (importTable "trips"
        ["trip_id", "route_id", "service_id", "trip_headsign", "trip_short_name",
         "direction_id", "block_id", "shape_id", "wheelchair_accessible", "bikes_allowed"]
        { cols := ["trip_id", "route_id", "service_id", "trip_headsign", "trip_short_name",
                   "direction_id", "shape_id", "wheelchair_accessible", "bikes_allowed"],
          rows := [r] }
        (emptyTable tripsSchema)).2 = [Event.warn (missingColsMsg ["block_id"])] ∧
    colVal tripsSchema.cols (insertVals tripsSchema (cleanVals "trips"
        (projectRow ["trip_id", "route_id", "service_id", "trip_headsign", "trip_short_name",
          "direction_id", "shape_id", "wheelchair_accessible", "bikes_allowed"] r)))
      "block_id" = SQLVal.null := by
  refine ⟨?_, ?_, ?_⟩
  · simp [importTable, insertRows, insertRow, insertVals, insertValsAux, keyOf, colVal,
      notNullViolation, cleanVals, cleanAccessedCols, rowGet_projectRow, applyAffinity,
      emptyTable, tripsSchema, h1, h2, h3]
  · simp [importTable, missingColsMsg]
  · simp [insertVals, insertValsAux, colVal, cleanVals, rowGet_projectRow, applyAffinity,
      tripsSchema]

/-- Claim C3 witness: the amended theorem applied to a concrete trips row. -/
theorem C3_witness :
    (importTable "trips"
        ["trip_id", "route_id", "service_id", "trip_headsign", "trip_short_name",
         "direction_id", "block_id", "shape_id", "wheelchair_accessible", "bikes_allowed"]
        { cols := ["trip_id", "route_id", "service_id", "trip_headsign", "trip_short_name",
                   "direction_id", "shape_id", "wheelchair_accessible", "bikes_allowed"],
          rows := [[("trip_id", some "TR1"), ("route_id", some "R1"),
                    ("service_id", some "SV1")]] }
        (emptyTable tripsSchema)).1 =
      Except.ok
        { schema := tripsSchema,
          rows := [insertVals tripsSchema (cleanVals "trips"
            (projectRow ["trip_id", "route_id", "service_id", "trip_headsign",
              "trip_short_name", "direction_id", "shape_id", "wheelchair_accessible",
              "bikes_allowed"]
              [("trip_id", some "TR1"), ("route_id", some "R1"),
               ("service_id", some "SV1")]))] } ∧
    (importTable "trips"
        ["trip_id", "route_id", "service_id", "trip_headsign", "trip_short_name",
         "direction_id", "block_id", "shape_id", "wheelchair_accessible", "bikes_allowed"]
        { cols := ["trip_id", "route_id", "service_id", "trip_headsign", "trip_short_name",
                   "direction_id", "shape_id", "wheelchair_accessible", "bikes_allowed"],
          rows := [[("trip_id", some "TR1"), ("route_id", some "R1"),
                    ("service_id", some "SV1")]] }
        (emptyTable tripsSchema)).2 = [Event.warn (missingColsMsg ["block_id"])] ∧
    colVal tripsSchema.cols (insertVals tripsSchema (cleanVals "trips"
        (projectRow ["trip_id", "route_id", "service_id", "trip_headsign", "trip_short_name",
          "direction_id", "shape_id", "wheelchair_accessible", "bikes_allowed"]
          [("trip_id", some "TR1"), ("route_id", some "R1"), ("service_id", some "SV1")])))
      "block_id" = SQLVal.null :=
  C3_missing_nullable_column "TR1" "R1" "SV1" _ (by decide) (by decide) (by decide)

/-! Claim C4. -/

/-- Claim C4 (confirmed): the routes cleaning block replaces an absent
route_long_name by the original route_short_name of the row and an absent
route_short_name by route_id, and any route row whose INSERT succeeds is
stored with both name columns non-NULL (a row for which the fallbacks
still leave a name NULL fails its INSERT instead of being stored). -/
theorem C4_route_name_defaults (r : Row) (t t' : Table)
    (hts : t.schema = routesSchema) :
    rowGet (cleanVals "routes" r) "route_long_name" =
      fillna (rowGet r "route_long_name") (rowGet r "route_short_name") ∧
    rowGet (cleanVals "routes" r) "route_short_name" =
      fillna (rowGet r "route_short_name") (rowGet r "route_id") ∧
    (insertRow t (cleanVals "routes" r) = Except.ok t' →
      t'.rows = t.rows ++ [insertVals routesSchema (cleanVals "routes" r)] ∧
      colVal routesSchema.cols (insertVals routesSchema (cleanVals "routes" r))
        "route_long_name" ≠ SQLVal.null ∧
      colVal routesSchema.cols (insertVals routesSchema (cleanVals "routes" r))
        "route_short_name" ≠ SQLVal.null) := by
  have hlong : rowGet (cleanVals "routes" r) "route_long_name" =
      fillna (rowGet r "route_long_name") (rowGet r "route_short_name") := by
    simp only [cleanVals, reduceIte]
    rw [rowGet_rowSet_ne _ _ _ _ (by decide), rowGet_rowSet_self]
  have hshort : rowGet (cleanVals "routes" r) "route_short_name" =
      fillna (rowGet r "route_short_name") (rowGet r "route_id") := by
    simp only [cleanVals, reduceIte]
    rw [rowGet_rowSet_self, rowGet_rowSet_ne _ _ _ _ (by decide),
      rowGet_rowSet_ne _ _ _ _ (by decide)]
  refine ⟨hlong, hshort, fun hins => ?_⟩
  obtain ⟨hsch, hrows⟩ := insertRow_ok hins
  have hnd : (routesSchema.cols.map Col.name).Nodup := by decide
  constructor
  · rw [hrows, hts]
  constructor
  · intro hnull
    have hmem : (⟨"route_long_name", false, true⟩ : Col) ∈ routesSchema.cols := by decide
    have := colVal_insertVals (cleanVals "routes" r) hnd hmem
    dsimp only at this
    rw [this] at hnull
    have hviol := notNullViolation_of (cleanVals "routes" r) hmem rfl hnull
    have hviol' : notNullViolation t.schema.cols
        (insertVals t.schema (cleanVals "routes" r)) = true := by
      rw [hts]
      exact hviol
    exact insertRow_notNull_fails hviol' t' hins
  · intro hnull
    have hmem : (⟨"route_short_name", false, true⟩ : Col) ∈ routesSchema.cols := by decide
    have := colVal_insertVals (cleanVals "routes" r) hnd hmem
    dsimp only at this
    rw [this] at hnull
    have hviol := notNullViolation_of (cleanVals "routes" r) hmem rfl hnull
    have hviol' : notNullViolation t.schema.cols
        (insertVals t.schema (cleanVals "routes" r)) = true := by
      rw [hts]
      exact hviol
    exact insertRow_notNull_fails hviol' t' hins

/-- Claim C4 witness: a concrete route row with route_long_name absent is
stored with route_long_name equal to route_short_name. -/
theorem C4_witness :
    rowGet (cleanVals "routes" [("route_id", some "R1"), ("route_short_name", some "X")])
      "route_long_name" = some "X" ∧
    (insertRow (emptyTable routesSchema)
        (cleanVals "routes" [("route_id", some "R1"), ("route_short_name", some "X")]) =
      Except.ok
        { schema := routesSchema,
          rows := [insertVals routesSchema
            (cleanVals "routes" [("route_id", some "R1"), ("route_short_name", some "X")])] }) ∧
    colVal routesSchema.cols (insertVals routesSchema
        (cleanVals "routes" [("route_id", some "R1"), ("route_short_name", some "X")]))
      "route_long_name" ≠ SQLVal.null := by
  have h := C4_route_name_defaults
    [("route_id", some "R1"), ("route_short_name", some "X")]
    (emptyTable routesSchema)
    { schema := routesSchema,
      rows := [insertVals routesSchema
        (cleanVals "routes" [("route_id", some "R1"), ("route_short_name", some "X")])] }
    rfl
  exact ⟨by decide, rfl, (h.2.2 rfl).2.1⟩

/-! Claim C5. -/

/-- Claim C5 (confirmed): if the source file of any imported table contains
two rows that agree, with present values, on every primary-key column
(single or composite), the build aborts: the run exits with code 1, no
manifest is produced and no store is published. The duplicate-key policy is
reject-on-duplicate, not last-write-wins. -/
theorem C5_duplicate_key_aborts (prior : Option DB) (src : SourceDir)
    (idxOk : String → Bool) (integ : String)
    (e : String × String × List String) (csv : CSV) (l1 l2 l3 : List Row) (r1 r2 : Row)
    (hmem : e ∈ importsList)
    (hsrc : assocLookup src e.2.1 = some csv)
    (hrows : csv.rows = l1 ++ r1 :: (l2 ++ r2 :: l3))
    (hkey : ∀ c ∈ (schemaFor e.1).pk,
      rowGet r1 c = rowGet r2 c ∧ (rowGet r1 c).isSome = true) :
    (main_pipeline prior src idxOk integ).exitCode = 1 ∧
    Event.manifest ∉ (main_pipeline prior src idxOk integ).events ∧
    (main_pipeline prior src idxOk integ).db = none := by
  obtain ⟨hnd, hpk, hcln⟩ := importsList_pk_facts e hmem
  have hbad : ∀ t : Table, t.schema = schemaFor e.1 →
      ∀ t', (importTable e.1 e.2.2 csv t).1 ≠ Except.ok t' :=
    fun t hts t' => importTable_dup_fails e.1 e.2.2 csv l1 l2 l3 r1 r2 (schemaFor e.1)
      hnd hpk hcln hrows hkey t hts t'
  obtain ⟨m, hfail⟩ :=
    runImports_fail e csv hmem hsrc hbad importsList hmem (initDB, []) tablesInv_init
  cases hrun : runImports src importsList (initDB, []) with
  | mk res evs =>
    rw [hrun] at hfail
    dsimp only at hfail
    have hpair : runImports src importsList (initDB, []) = (Except.error m, evs) := by
      rw [hrun, hfail]
    have hwarn : warnOnly evs := by
      obtain ⟨ext, hext, hw⟩ := runImports_events src importsList (initDB, [])
      rw [hpair] at hext
      dsimp only at hext
      rw [hext]
      simpa using hw
    rw [main_pipeline_of_imports_error hpair]
    exact ⟨rfl, warnOnly_manifest_not_mem hwarn, rfl⟩

/-- A source directory whose agency file holds two rows with the same
agency_id. -/
def dupAgencySrc : SourceDir := [
  ("agency.txt",
    { cols := ["agency_id", "agency_name", "agency_url", "agency_timezone"],
      rows := [[("agency_id", some "A1"), ("agency_name", some "N"),
                ("agency_url", some "U"), ("agency_timezone", some "Z")],
               [("agency_id", some "A1"), ("agency_name", some "M"),
                ("agency_url", some "V"), ("agency_timezone", some "W")]] })]

/-- Claim C5 witness: the theorem applied to a concrete duplicated
agency_id. -/
theorem C5_witness :
    (main_pipeline none dupAgencySrc (fun _ => true) "ok").exitCode = 1 ∧
    Event.manifest ∉ (main_pipeline none dupAgencySrc (fun _ => true) "ok").events ∧
    (main_pipeline none dupAgencySrc (fun _ => true) "ok").db = none :=
  C5_duplicate_key_aborts none dupAgencySrc (fun _ => true) "ok"
    ("agency", "agency.txt",
      ["agency_id", "agency_name", "agency_url", "agency_timezone", "agency_lang",
       "agency_phone"])
    { cols := ["agency_id", "agency_name", "agency_url", "agency_timezone"],
      rows := [[("agency_id", some "A1"), ("agency_name", some "N"),
                ("agency_url", some "U"), ("agency_timezone", some "Z")],
               [("agency_id", some "A1"), ("agency_name", some "M"),
                ("agency_url", some "V"), ("agency_timezone", some "W")]] }
    [] [] []
    [("agency_id", some "A1"), ("agency_name", some "N"),
     ("agency_url", some "U"), ("agency_timezone", some "Z")]
    [("agency_id", some "A1"), ("agency_name", some "M"),
     ("agency_url", some "V"), ("agency_timezone", some "W")]
    (by decide) (by decide) (by decide) (by decide)

/-! Claim C6. -/

/-- Claim C6 (confirmed): when the imports succeed, the build runs
compaction (VACUUM), then the statistics refresh (ANALYZE), then the
structural self-check, in exactly that order at the end of the event log;
the manifest step runs only when the check reports the canonical ok result,
and for any other result the build exits with code 1, publishes no store
and never reaches the manifest step. -/
theorem C6_integrity_gate (prior : Option DB) (src : SourceDir) (idxOk : String → Bool)
    (integ : String) (db1 : DB) (evs1 : List Event)
    (h : runImports src importsList (initDB, []) = (Except.ok db1, evs1)) :
    (main_pipeline prior src idxOk integ).events =
      (createIndicesAux idxOk indexNames (db1, evs1)).2 ++
        [Event.vacuum, Event.analyze, Event.integrityCheck integ] ++
        (if integ = "ok" then [Event.manifest] else []) ∧
    (integ = "ok" → (main_pipeline prior src idxOk integ).exitCode = 0) ∧
    (integ ≠ "ok" →
      (main_pipeline prior src idxOk integ).exitCode = 1 ∧
      (main_pipeline prior src idxOk integ).db = none ∧
      Event.manifest ∉ (main_pipeline prior src idxOk integ).events) := by
  rw [main_pipeline_of_imports_ok h]
  by_cases hi : integ = "ok"
  · rw [if_pos hi, if_pos hi]
    exact ⟨rfl, fun _ => rfl, fun hne => absurd hi hne⟩
  · rw [if_neg hi, if_neg hi]
    refine ⟨(List.append_nil _).symm, fun heq => absurd heq hi, fun _ => ⟨rfl, rfl, ?_⟩⟩
    have hw1 : warnOnly evs1 := by
      obtain ⟨ext1, hext1, hw⟩ := runImports_events src importsList (initDB, [])
      rw [h] at hext1
      dsimp only at hext1
      rw [hext1]
      simpa using hw
    have hwi : warnOnly (createIndicesAux idxOk indexNames (db1, evs1)).2 := by
      obtain ⟨ext2, hext2, hw2⟩ := createIndicesAux_events idxOk indexNames (db1, evs1)
      rw [hext2]
      exact warnOnly_append hw1 hw2
    intro hmm
    rcases List.mem_append.mp hmm with hA | hB
    · exact warnOnly_manifest_not_mem hwi hA
    · simp at hB

/-- Claim C6 witness: on a source directory with no files the imports
succeed, and with a self-check result other than ok the build aborts
without a manifest. -/
theorem C6_witness :
    (main_pipeline none [] (fun _ => true) "bad").events =
      (createIndicesAux (fun _ => true) indexNames (initDB, missingFileWarns)).2 ++
        [Event.vacuum, Event.analyze, Event.integrityCheck "bad"] ++
        (if "bad" = "ok" then [Event.manifest] else []) ∧
    ("bad" = "ok" → (main_pipeline none [] (fun _ => true) "bad").exitCode = 0) ∧
    ("bad" ≠ "ok" →
      (main_pipeline none [] (fun _ => true) "bad").exitCode = 1 ∧
      (main_pipeline none [] (fun _ => true) "bad").db = none ∧
      Event.manifest ∉ (main_pipeline none [] (fun _ => true) "bad").events) :=
  C6_integrity_gate none [] (fun _ => true) "bad" initDB missingFileWarns rfl

/-! Claim C7. -/

/-- Claim C7 (confirmed): a table whose source file is absent is only
skipped: the missing-file warning is logged, and whenever the rest of the
build succeeds (the store is produced), the run exits with code 0 and that
table is present but empty. -/
theorem C7_missing_file_skip (prior : Option DB) (src : SourceDir) (idxOk : String → Bool)
    (e : String × String × List String) (db : DB)
    (hmem : e ∈ importsList)
    (hmiss : assocLookup src e.2.1 = none)
    (hdb : (main_pipeline prior src idxOk "ok").db = some db) :
    (main_pipeline prior src idxOk "ok").exitCode = 0 ∧
    Event.warn (missingFileMsg e.2.1) ∈ (main_pipeline prior src idxOk "ok").events ∧
    assocLookup db.tables e.1 = some (emptyTable (schemaFor e.1)) := by
  cases hrun : runImports src importsList (initDB, []) with
  | mk res evs =>
    cases res with
    | error m =>
      rw [main_pipeline_of_imports_error hrun] at hdb
      exact Option.noConfusion hdb
    | ok db1 =>
      rw [main_pipeline_of_imports_ok hrun] at hdb ⊢
      rw [if_pos rfl] at hdb ⊢
      refine ⟨rfl, ?_, ?_⟩
      · have hwarn := runImports_warn_missing e importsList (initDB, []) db1 evs hmem hmiss hrun
        obtain ⟨ext2, hext2, -⟩ := createIndicesAux_events idxOk indexNames (db1, evs)
        dsimp only
        rw [hext2]
        exact List.mem_append_left _ (List.mem_append_left _ (List.mem_append_left _ hwarn))
      · have hdb' : db = (createIndicesAux idxOk indexNames (db1, evs)).1 :=
          (Option.some.inj hdb).symm
        have hmissall : ∀ e' ∈ importsList, e'.1 = e.1 →
            assocLookup src e'.2.1 = none := by
          intro e' he' heq
          rw [importsList_names_unique e' he' e hmem heq]
          exact hmiss
        have hunt := runImports_ok_untouched e.1 importsList (initDB, []) db1 evs hmissall hrun
        rw [hdb', createIndicesAux_tables idxOk indexNames (db1, evs)]
        rw [hunt]
        exact initDB_lookup_empty e hmem

/-- Claim C7 witness: the theorem applied to a concrete build with
routes.txt absent. -/
theorem C7_witness :
    ∃ db, (main_pipeline none [] (fun _ => true) "ok").db = some db ∧
      (main_pipeline none [] (fun _ => true) "ok").exitCode = 0 ∧
      Event.warn (missingFileMsg "routes.txt") ∈
        (main_pipeline none [] (fun _ => true) "ok").events ∧
      assocLookup db.tables "routes" = some (emptyTable (schemaFor "routes")) :=
  ⟨_, rfl, C7_missing_file_skip none [] (fun _ => true)
    ("routes", "routes.txt",
      ["route_id", "agency_id", "route_short_name", "route_long_name", "route_type",
       "route_color", "route_text_color"]) _ (by decide) rfl rfl⟩

/-! Claim C8. -/

/-- Claim C8 (confirmed): the stops cleaning block replaces an absent
stop_name by the placeholder literal Unknown Stop and absent stop_lat or
stop_lon each by the text 0.0, so after cleaning all three fields hold a
value and the bound column values are never NULL. -/
theorem C8_stop_defaults (r : Row) :
    rowGet (cleanVals "stops" r) "stop_name" =
      some ((rowGet r "stop_name").getD "Unknown Stop") ∧
    rowGet (cleanVals "stops" r) "stop_lat" =
      some ((rowGet r "stop_lat").getD "0.0") ∧
    rowGet (cleanVals "stops" r) "stop_lon" =
      some ((rowGet r "stop_lon").getD "0.0") ∧
    colVal stopsSchema.cols (insertVals stopsSchema (cleanVals "stops" r))
      "stop_name" ≠ SQLVal.null ∧
    colVal stopsSchema.cols (insertVals stopsSchema (cleanVals "stops" r))
      "stop_lat" ≠ SQLVal.null ∧
    colVal stopsSchema.cols (insertVals stopsSchema (cleanVals "stops" r))
      "stop_lon" ≠ SQLVal.null := by
  have hsr : ¬("stops" : String) = "routes" := by decide
  have hname : rowGet (cleanVals "stops" r) "stop_name" =
      some ((rowGet r "stop_name").getD "Unknown Stop") := by
    simp only [cleanVals, if_neg hsr, reduceIte]
    rw [rowGet_rowSet_ne _ _ _ _ (by decide), rowGet_rowSet_ne _ _ _ _ (by decide),
      rowGet_rowSet_self, fillna_some]
  have hlat : rowGet (cleanVals "stops" r) "stop_lat" =
      some ((rowGet r "stop_lat").getD "0.0") := by
    simp only [cleanVals, if_neg hsr, reduceIte]
    rw [rowGet_rowSet_ne _ _ _ _ (by decide), rowGet_rowSet_self,
      rowGet_rowSet_ne _ _ _ _ (by decide), fillna_some]
  have hlon : rowGet (cleanVals "stops" r) "stop_lon" =
      some ((rowGet r "stop_lon").getD "0.0") := by
    simp only [cleanVals, if_neg hsr, reduceIte]
    rw [rowGet_rowSet_self, rowGet_rowSet_ne _ _ _ _ (by decide),
      rowGet_rowSet_ne _ _ _ _ (by decide), fillna_some]
  have hnd : (stopsSchema.cols.map Col.name).Nodup := by decide
  refine ⟨hname, hlat, hlon, ?_, ?_, ?_⟩
  · have hmem : (⟨"stop_name", false, true⟩ : Col) ∈ stopsSchema.cols := by decide
    have hcv := colVal_insertVals (cleanVals "stops" r) hnd hmem
    dsimp only at hcv
    rw [hcv, hname]
    exact applyAffinity_some_ne_null _ _
  · have hmem : (⟨"stop_lat", false, true⟩ : Col) ∈ stopsSchema.cols := by decide
    have hcv := colVal_insertVals (cleanVals "stops" r) hnd hmem
    dsimp only at hcv
    rw [hcv, hlat]
    exact applyAffinity_some_ne_null _ _
  · have hmem : (⟨"stop_lon", false, true⟩ : Col) ∈ stopsSchema.cols := by decide
    have hcv := colVal_insertVals (cleanVals "stops" r) hnd hmem
    dsimp only at hcv
    rw [hcv, hlon]
    exact applyAffinity_some_ne_null _ _

/-! Claim C9. -/

/-- Claim C9 (confirmed): index creation is non-fatal and idempotent. The
exit code of a build is the same whatever indices the engine accepts or
refuses; a refused index only adds a logged warning to the event log of a
build whose imports succeeded; and running the index loop a second time
over a store leaves the store unchanged, indices already present being
skipped. -/
theorem C9_index_failures_nonfatal (prior : Option DB) (src : SourceDir)
    (idxOk idxOk' : String → Bool) (integ : String) (n : String)
    (db1 : DB) (evs1 : List Event) :
    (main_pipeline prior src idxOk integ).exitCode =
      (main_pipeline prior src idxOk' integ).exitCode ∧
    (runImports src importsList (initDB, []) = (Except.ok db1, evs1) →
      n ∈ indexNames → idxOk n = false →
      Event.warn ("Indice " ++ n ++ ": errore") ∈
        (main_pipeline prior src idxOk integ).events) ∧
    (createIndicesAux idxOk indexNames
        ((createIndicesAux idxOk indexNames (db1, evs1)).1, evs1)).1 =
      (createIndicesAux idxOk indexNames (db1, evs1)).1 := by
  refine ⟨?_, ?_, ?_⟩
  · cases hrun : runImports src importsList (initDB, []) with
    | mk res evs =>
      cases res with
      | error m =>
        rw [main_pipeline_of_imports_error hrun, main_pipeline_of_imports_error hrun]
      | ok dbA =>
        rw [main_pipeline_of_imports_ok hrun, main_pipeline_of_imports_ok hrun]
        by_cases hi : integ = "ok"
        · rw [if_pos hi, if_pos hi]
        · rw [if_neg hi, if_neg hi]
  · intro hrun hn hfalse
    have hidx : db1.indices = [] :=
      runImports_ok_indices importsList (initDB, []) db1 evs1 hrun
    have hwarn := createIndicesAux_warn idxOk indexNames (db1, evs1) n hn hfalse
      (by rw [hidx]; exact List.not_mem_nil _)
    rw [main_pipeline_of_imports_ok hrun]
    by_cases hi : integ = "ok"
    · rw [if_pos hi]
      dsimp only
      exact List.mem_append_left _ (List.mem_append_left _ hwarn)
    · rw [if_neg hi]
      dsimp only
      exact List.mem_append_left _ hwarn
  · exact createIndicesAux_noop idxOk indexNames _
      (fun m hm hok => createIndicesAux_added idxOk indexNames (db1, evs1) m hm hok)

/-- Claim C9 witness: the warning conjunct applied to a concrete build in
which every index creation is refused. -/
theorem C9_witness :
    Event.warn ("Indice idx_shapes_id: errore") ∈
      (main_pipeline none [] (fun _ => false) "ok").events :=
  (C9_index_failures_nonfatal none [] (fun _ => false) (fun _ => true) "ok"
    "idx_shapes_id" initDB missingFileWarns).2.1 rfl (by decide) rfl

/-! Claim C10. -/

/-- Claim C10 (confirmed): the pre-existing store is removed before
creation, so the outcome of a build does not depend on any prior store;
in particular running the build twice on the same input gives stores with
identical per-table schemas and identical per-table row counts. -/
theorem C10_rebuild_deterministic (src : SourceDir) (idxOk : String → Bool)
    (integ : String) :
    (∀ p1 p2 : Option DB,
      main_pipeline p1 src idxOk integ = main_pipeline p2 src idxOk integ) ∧
    (main_pipeline (main_pipeline none src idxOk integ).db src idxOk integ).db.map
        (fun db => db.tables.map (fun p => (p.1, p.2.schema))) =
      (main_pipeline none src idxOk integ).db.map
        (fun db => db.tables.map (fun p => (p.1, p.2.schema))) ∧
    (main_pipeline (main_pipeline none src idxOk integ).db src idxOk integ).db.map
        (fun db => db.tables.map (fun p => (p.1, p.2.rows.length))) =
      (main_pipeline none src idxOk integ).db.map
        (fun db => db.tables.map (fun p => (p.1, p.2.rows.length))) := by
  have hmain : ∀ p1 p2 : Option DB,
      main_pipeline p1 src idxOk integ = main_pipeline p2 src idxOk integ :=
    fun p1 p2 => rfl
  exact ⟨hmain, by rw [hmain _ none], by rw [hmain _ none]⟩

end RomaGtfs
